import Mathlib

/-!
Verification of the ASE scene-assembly stage (`ASELoader.cpp`).

The definitions below are a shallow embedding of the post-parse pipeline of
the ASE importer: corner expansion (`BuildUniqueRepresentation`), default
material injection (`GenerateDefaultMaterial`), mesh splitting
(`ConvertMeshes`), material flattening (`BuildMaterialIndices` /
`ConvertMaterial`), hierarchy reconstruction (`AddNodes` / `BuildNodes`) and
animation assembly (`BuildAnimations`).

Modelling conventions:
* machine floats (`float`/`double`) are modelled as `ℚ`; the sentinel qNaN
  used for "unset texture blend" is modelled as `none` of an `Option ℚ`;
* C++ `std::vector` indexing out of range (undefined behavior) is modelled
  with `List.getD` and the type's default element;
* 4x4 transformation matrices are elided: no verified property reads them,
  they never influence control flow, and their arithmetic lives in headers
  outside this translation unit;
* recursion of `AddNodes` is modelled with explicit fuel, since the C++
  recursion does not terminate on all inputs; `none` models divergence.
-/

set_option maxHeartbeats 1000000
set_option linter.unusedVariables false

namespace ASE

/-- 3-component vector (`aiVector3D`), components as exact rationals. -/
abbrev V3 := ℚ × ℚ × ℚ

/-- 4-component value (`aiColor4D` / `aiQuaternion`). -/
abbrev V4 := ℚ × ℚ × ℚ × ℚ

/-- `ASE::Face::DEFAULT_MATINDEX`: sentinel meaning "no material assigned".
Modelled from the spec: the defining header is not part of the source file;
the value is the canonical 32-bit all-ones sentinel. -/
def DEFAULT_MATINDEX : Nat := 4294967295

/-- `AI_MAX_NUMBER_OF_TEXTURECOORDS` (4 texture-coordinate channels). -/
def AI_MAX_NUMBER_OF_TEXTURECOORDS : Nat := 4

/-- Per-position bone bindings (`ASE::BoneVertex`): list of
(bone index, weight) pairs. -/
structure BoneVertex where
  mBoneWeights : List (Nat × ℚ)
  deriving Repr, DecidableEq, Inhabited

/-- One triangular face of a raw ASE mesh (`ASE::Face`). -/
structure ASEFace where
  mIndices : Nat × Nat × Nat
  amUVIndices : List (Nat × Nat × Nat)
  mColorIndices : Nat × Nat × Nat
  iMaterial : Nat
  iSmoothGroup : Nat
  deriving Repr, DecidableEq, Inhabited

/-- A bone of a raw ASE mesh (`ASE::Bone`). -/
structure ASEBone where
  mName : String
  deriving Repr, DecidableEq, Inhabited

/-- Per-mesh animation channel data (`ASE::Animation`): position keys
(time, vector) and rotation keys (time, quaternion). -/
structure ASEAnim where
  akeyPositions : List (ℚ × V3)
  akeyRotations : List (ℚ × V4)
  deriving Repr, DecidableEq, Inhabited

/-- A raw mesh as produced by the parser (`ASE::Mesh`).  The 4x4 transform
is elided (see the module comment). -/
structure ASEMesh where
  mName : String
  mParent : String
  mPositions : List V3
  mFaces : List ASEFace
  amTexCoords : List (List V3)
  mNumUVComponents : List Nat
  mVertexColors : List V4
  mNormals : List V3
  mBones : List ASEBone
  mBoneVertices : List BoneVertex
  iMaterialIndex : Nat
  bSkip : Bool
  mAnim : ASEAnim
  deriving Repr, DecidableEq, Inhabited

/-- The three components of an index triple, in order. -/
def tripleList (t : Nat × Nat × Nat) : List Nat := [t.1, t.2.1, t.2.2]

/-- One corner-expanded stream: for every face, for each of its three corner
indices picked by `pick`, the source element at that index
(`BuildUniqueRepresentation`'s per-corner copy loop). -/
def expandStream [Inhabited α] (src : List α) (faces : List ASEFace)
    (pick : ASEFace → Nat × Nat × Nat) : List α :=
  faces.flatMap (fun f => (tripleList (pick f)).map (fun ix => src.getD ix default))

/-- The face-index rewrite at the end of `BuildUniqueRepresentation`'s face
loop: after face number `fi` the flat corner counter `iCurrent` equals
`3*(fi+1)`, and the face's indices become
`(iCurrent-1, iCurrent-2, iCurrent-3)`. -/
def rewriteFaces : Nat → List ASEFace → List ASEFace
  | _, [] => []
  | fi, f :: rest =>
      { f with mIndices := (3 * fi + 2, 3 * fi + 1, 3 * fi) } :: rewriteFaces (fi + 1) rest

/-- `ASEImporter::BuildUniqueRepresentation`: rewrite a mesh to a
per-face-corner layout.  Positions, texture coordinates, vertex colors and
normals become length `3*F` streams; the face indices are flipped to
`(3f+2, 3f+1, 3f)`.  The source also fills a local corner-expanded
`mBoneVertices` array but never writes it back to the mesh, so the bone
vertices are left untouched here as well. -/
def buildUniqueRepresentation (mesh : ASEMesh) : ASEMesh :=
  { mesh with
    mPositions := expandStream mesh.mPositions mesh.mFaces (fun f => f.mIndices)
    amTexCoords := (List.range AI_MAX_NUMBER_OF_TEXTURECOORDS).map (fun c =>
      if (mesh.amTexCoords.getD c []).isEmpty then []
      else expandStream (mesh.amTexCoords.getD c []) mesh.mFaces
        (fun f => f.amUVIndices.getD c default))
    mVertexColors :=
      if mesh.mVertexColors.isEmpty then []
      else expandStream mesh.mVertexColors mesh.mFaces (fun f => f.mColorIndices)
    mNormals :=
      if mesh.mNormals.isEmpty then []
      else expandStream mesh.mNormals mesh.mFaces (fun f => f.mIndices)
    mFaces := rewriteFaces 0 mesh.mFaces }

theorem expandStream_length [Inhabited α] (src : List α) (faces : List ASEFace)
    (pick : ASEFace → Nat × Nat × Nat) :
    (expandStream src faces pick).length = 3 * faces.length := by
  induction faces with
  | nil => rfl
  | cons f rest ih =>
      have hsplit : expandStream src (f :: rest) pick
          = (tripleList (pick f)).map (fun ix => src.getD ix default)
              ++ expandStream src rest pick := by
        simp [expandStream]
      rw [hsplit, List.length_append, ih]
      simp [tripleList, Nat.mul_succ, Nat.add_comm]

theorem rewriteFaces_get? (faces : List ASEFace) :
    ∀ k f fc, (rewriteFaces k faces).get? f = some fc →
      fc.mIndices = (3 * (k + f) + 2, 3 * (k + f) + 1, 3 * (k + f)) := by
  induction faces with
  | nil => intro k f fc h; simp [rewriteFaces] at h
  | cons hd rest ih =>
      intro k f fc h
      cases f with
      | zero =>
          simp only [rewriteFaces, List.get?] at h
          cases h
          simp
      | succ f' =>
          simp only [rewriteFaces, List.get?] at h
          have := ih (k + 1) f' fc h
          simpa [Nat.add_assoc, Nat.add_comm, Nat.add_left_comm] using this

/-- C1: for every non-skipped raw mesh with `F` faces, corner expansion
produces a positions stream of length exactly `3*F`, and the stored indices
of the `f`-th face are exactly `(3f+2, 3f+1, 3f)` — the consecutive
descending triple that reverses the original winding. -/
theorem corner_expansion_length_and_winding (mesh : ASEMesh)
    (hskip : mesh.bSkip = false) :
    (buildUniqueRepresentation mesh).mPositions.length = 3 * mesh.mFaces.length ∧
    ∀ f fc, (buildUniqueRepresentation mesh).mFaces.get? f = some fc →
      fc.mIndices = (3 * f + 2, 3 * f + 1, 3 * f) := by
  constructor
  · exact expandStream_length _ _ _
  · intro f fc h
    have := rewriteFaces_get? mesh.mFaces 0 f fc h
    simpa using this

/-- A small concrete raw mesh: a single triangle. -/
def triMesh : ASEMesh :=
  { mName := "tri"
    mParent := ""
    mPositions := [(0, 0, 0), (1, 0, 0), (0, 1, 0)]
    mFaces := [{ mIndices := (0, 1, 2), amUVIndices := [], mColorIndices := (0, 0, 0),
                 iMaterial := 0, iSmoothGroup := 1 }]
    amTexCoords := [[], [], [], []]
    mNumUVComponents := [2, 2, 2, 2]
    mVertexColors := []
    mNormals := []
    mBones := []
    mBoneVertices := []
    iMaterialIndex := DEFAULT_MATINDEX
    bSkip := false
    mAnim := { akeyPositions := [], akeyRotations := [] } }

theorem corner_expansion_witness :
    triMesh.bSkip = false ∧
    ((buildUniqueRepresentation triMesh).mPositions.length = 3 * triMesh.mFaces.length ∧
     ∀ f fc, (buildUniqueRepresentation triMesh).mFaces.get? f = some fc →
        fc.mIndices = (3 * f + 2, 3 * f + 1, 3 * f)) :=
  ⟨rfl, corner_expansion_length_and_winding triMesh rfl⟩

/-- `Dot3DSFile` shading tags used by ASE materials. -/
inductive ShadingType
  | Flat | Gouraud | Phong | Blinn | Metal | Wire
  deriving Repr, DecidableEq, Inhabited

/-- One texture slot of a material: map name and blend factor.  The C++
keeps the blend as a `float` whose qNaN bit pattern means "unset"
(`is_not_qnan`); that sentinel is modelled as `none`. -/
structure TexSlot where
  mMapName : String
  mTextureBlend : Option ℚ
  deriving Repr, DecidableEq, Inhabited

/-- Scalar part of an ASE material (the `Dot3DS::Material` base of
`ASE::Material`). -/
structure MatBase where
  mName : String
  mAmbient : V3
  mDiffuse : V3
  mSpecular : V3
  mEmissive : V3
  mSpecularExponent : ℚ
  mShininessStrength : ℚ
  mTransparency : ℚ
  mShading : ShadingType
  sTexDiffuse : TexSlot
  sTexSpecular : TexSlot
  sTexOpacity : TexSlot
  sTexEmissive : TexSlot
  sTexAmbient : TexSlot
  sTexBump : TexSlot
  sTexShininess : TexSlot
  bNeed : Bool
  deriving Repr, DecidableEq, Inhabited

/-- `ASE::Material`: scalar base plus submaterials.  The C++ type is
recursive (submaterials are themselves `ASE::Material`s) but no code in
this translation unit ever reads a submaterial's own submaterials, so a
submaterial is embedded by its scalar base alone. -/
structure ASEMaterial where
  base : MatBase
  avSubMaterials : List MatBase
  deriving Repr, DecidableEq, Inhabited

/-- A default-constructed `ASE::Material()`.  Modelled from the spec: the
constructor lives in a header outside the source file; all fields the
importer later reads are overwritten for the default material, the rest are
neutral (`needed` false, no submaterials, unset blends). -/
def defaultConstructedMaterial : ASEMaterial :=
  { base :=
      { mName := ""
        mAmbient := (0, 0, 0)
        mDiffuse := (0, 0, 0)
        mSpecular := (0, 0, 0)
        mEmissive := (0, 0, 0)
        mSpecularExponent := 0
        mShininessStrength := 0
        mTransparency := 1
        mShading := ShadingType.Gouraud
        sTexDiffuse := { mMapName := "", mTextureBlend := none }
        sTexSpecular := { mMapName := "", mTextureBlend := none }
        sTexOpacity := { mMapName := "", mTextureBlend := none }
        sTexEmissive := { mMapName := "", mTextureBlend := none }
        sTexAmbient := { mMapName := "", mTextureBlend := none }
        sTexBump := { mMapName := "", mTextureBlend := none }
        sTexShininess := { mMapName := "", mTextureBlend := none }
        bNeed := false }
    avSubMaterials := [] }

/-- The material appended by `ASEImporter::GenerateDefaultMaterial`: a
default-constructed material with diffuse (0.5,0.5,0.5), specular (1,1,1),
ambient (0.05,0.05,0.05), Gouraud shading and the name
`AI_DEFAULT_MATERIAL_NAME` = "DefaultMaterial". -/
def defaultMaterialEntry : ASEMaterial :=
  { defaultConstructedMaterial with
    base := { defaultConstructedMaterial.base with
      mDiffuse := (1/2, 1/2, 1/2)
      mSpecular := (1, 1, 1)
      mAmbient := (1/20, 1/20, 1/20)
      mShading := ShadingType.Gouraud
      mName := "DefaultMaterial" } }

/-- The per-mesh redirection performed inside
`GenerateDefaultMaterial`'s scan loop: a non-skipped mesh whose material
index is the `DEFAULT_MATINDEX` sentinel is pointed at slot `n` (the size
the material list had while scanning). -/
def redirectMesh (n : Nat) (m : ASEMesh) : ASEMesh :=
  if m.bSkip = false ∧ m.iMaterialIndex = DEFAULT_MATINDEX then
    { m with iMaterialIndex := n }
  else m

/-- `ASEImporter::GenerateDefaultMaterial`: scan all meshes; every
non-skipped mesh with the sentinel index is redirected to
`mats.length` and forces `bHas`; if `bHas` or the material list is empty,
the default material is appended. -/
def generateDefaultMaterial (mats : List ASEMaterial) (meshes : List ASEMesh) :
    List ASEMaterial × List ASEMesh :=
  let bHas := meshes.any (fun m => !m.bSkip && m.iMaterialIndex == DEFAULT_MATINDEX)
  let meshes' := meshes.map (redirectMesh mats.length)
  if bHas || mats.isEmpty then
    (mats ++ [defaultMaterialEntry], meshes')
  else
    (mats, meshes')

theorem genDefaultCond_iff (mats : List ASEMaterial) (meshes : List ASEMesh) :
    ((meshes.any fun m => !m.bSkip && m.iMaterialIndex == DEFAULT_MATINDEX)
        || mats.isEmpty) = true
      ↔ ((∃ m ∈ meshes, m.bSkip = false ∧ m.iMaterialIndex = DEFAULT_MATINDEX)
          ∨ mats = []) := by
  simp [List.any_eq_true, Bool.not_eq_true', List.isEmpty_iff]

/-- C6: iff some non-skipped mesh carries the `DEFAULT_MATINDEX` sentinel
or the material list is empty, exactly one material — named
"DefaultMaterial", diffuse (0.5,0.5,0.5), specular (1,1,1), ambient
(0.05,0.05,0.05), Gouraud shading — is appended, and every non-skipped
sentinel mesh is redirected to the appended material's index
(`mats.length`); otherwise the material list is unchanged. -/
theorem generate_default_material_law (mats : List ASEMaterial) (meshes : List ASEMesh) :
    (generateDefaultMaterial mats meshes).1
      = (if (∃ m ∈ meshes, m.bSkip = false ∧ m.iMaterialIndex = DEFAULT_MATINDEX)
            ∨ mats = []
         then mats ++ [defaultMaterialEntry] else mats) ∧
    (generateDefaultMaterial mats meshes).2
      = meshes.map (fun m =>
          if m.bSkip = false ∧ m.iMaterialIndex = DEFAULT_MATINDEX
          then { m with iMaterialIndex := mats.length } else m) ∧
    (mats ++ [defaultMaterialEntry]).get? mats.length = some defaultMaterialEntry ∧
    defaultMaterialEntry.base.mName = "DefaultMaterial" ∧
    defaultMaterialEntry.base.mDiffuse = (1/2, 1/2, 1/2) ∧
    defaultMaterialEntry.base.mSpecular = (1, 1, 1) ∧
    defaultMaterialEntry.base.mAmbient = (1/20, 1/20, 1/20) ∧
    defaultMaterialEntry.base.mShading = ShadingType.Gouraud := by
  refine ⟨?_, ?_, ?_, rfl, rfl, rfl, rfl, rfl⟩
  · by_cases h : (∃ m ∈ meshes, m.bSkip = false ∧ m.iMaterialIndex = DEFAULT_MATINDEX)
        ∨ mats = []
    · rw [if_pos h]
      simp only [generateDefaultMaterial]
      rw [if_pos ((genDefaultCond_iff mats meshes).2 h)]
    · rw [if_neg h]
      simp only [generateDefaultMaterial]
      rw [if_neg (fun hb => h ((genDefaultCond_iff mats meshes).1 hb))]
  · simp only [generateDefaultMaterial]
    split <;> rfl
  · simp

/-- Output shading enum (`aiShadingMode`). -/
inductive AiShadingMode
  | Flat | Gouraud | Phong | Blinn | CookTorrance | NoShading
  deriving Repr, DecidableEq, Inhabited

/-- Texture slots of the generic material container. -/
inductive TexKind
  | Diffuse | Specular | Opacity | Emissive | Ambient | Height | Shininess
  deriving Repr, DecidableEq, Inhabited

/-- Property keys used by `ConvertMaterial` (`AI_MATKEY_...`). -/
inductive MatKey
  | NAME | COLOR_AMBIENT | COLOR_DIFFUSE | COLOR_SPECULAR | COLOR_EMISSIVE
  | SHININESS | SHININESS_STRENGTH | OPACITY | SHADING_MODEL | ENABLE_WIREFRAME
  | TEXTURE (k : TexKind) | TEXBLEND (k : TexKind)
  deriving Repr, DecidableEq

/-- Property values stored into the generic material container.  Float
properties are `Option ℚ` so that a stored qNaN stays representable. -/
inductive PropVal
  | pstr (s : String)
  | pcol (c : V3)
  | pflt (x : Option ℚ)
  | pshade (m : AiShadingMode)
  | pint (n : Nat)
  deriving Repr, DecidableEq

/-- One texture-slot block of `ConvertMaterial`: if the slot's map name is
non-empty, store the map name; additionally, if the slot's own blend is not
the qNaN sentinel, store `storedBlend` as the blend factor.  `storedBlend`
is passed by the caller because the shininess block of the source stores
`sTexBump.mTextureBlend` instead of the slot's own blend. -/
def texProps (kind : TexKind) (slot : TexSlot) (storedBlend : Option ℚ) :
    List (MatKey × PropVal) :=
  if 0 < slot.mMapName.length then
    (MatKey.TEXTURE kind, PropVal.pstr slot.mMapName) ::
      (match slot.mTextureBlend with
        | some _ => [(MatKey.TEXBLEND kind, PropVal.pflt storedBlend)]
        | none => [])
  else []

/-- `ASEImporter::ConvertMaterial`: build the generic material container's
property list, in the order the source adds properties. -/
def convertMaterial (clrAmbient : V3) (mat : MatBase) : List (MatKey × PropVal) :=
  let mAmbient : V3 := (mat.mAmbient.1 + clrAmbient.1,
                        mat.mAmbient.2.1 + clrAmbient.2.1,
                        mat.mAmbient.2.2 + clrAmbient.2.2)
  let hasShininess : Bool := mat.mSpecularExponent != 0 && mat.mShininessStrength != 0
  let shininessProps :=
    if hasShininess then
      [(MatKey.SHININESS, PropVal.pflt (some mat.mSpecularExponent)),
       (MatKey.SHININESS_STRENGTH, PropVal.pflt (some mat.mShininessStrength))]
    else []
  let mShading :=
    if hasShininess then mat.mShading
    else if mat.mShading = ShadingType.Metal ∨ mat.mShading = ShadingType.Phong
            ∨ mat.mShading = ShadingType.Blinn
      then ShadingType.Gouraud else mat.mShading
  let eShading : AiShadingMode :=
    match mShading with
    | ShadingType.Flat => AiShadingMode.Flat
    | ShadingType.Phong => AiShadingMode.Phong
    | ShadingType.Blinn => AiShadingMode.Blinn
    | ShadingType.Wire => AiShadingMode.Gouraud
    | ShadingType.Gouraud => AiShadingMode.Gouraud
    | ShadingType.Metal => AiShadingMode.CookTorrance
  [(MatKey.NAME, PropVal.pstr mat.mName),
   (MatKey.COLOR_AMBIENT, PropVal.pcol mAmbient),
   (MatKey.COLOR_DIFFUSE, PropVal.pcol mat.mDiffuse),
   (MatKey.COLOR_SPECULAR, PropVal.pcol mat.mSpecular),
   (MatKey.COLOR_EMISSIVE, PropVal.pcol mat.mEmissive)]
  ++ shininessProps
  ++ [(MatKey.OPACITY, PropVal.pflt (some mat.mTransparency)),
      (MatKey.SHADING_MODEL, PropVal.pshade eShading)]
  ++ (if mShading = ShadingType.Wire then
        [(MatKey.ENABLE_WIREFRAME, PropVal.pint 1)] else [])
  ++ texProps TexKind.Diffuse mat.sTexDiffuse mat.sTexDiffuse.mTextureBlend
  ++ texProps TexKind.Specular mat.sTexSpecular mat.sTexSpecular.mTextureBlend
  ++ texProps TexKind.Opacity mat.sTexOpacity mat.sTexOpacity.mTextureBlend
  ++ texProps TexKind.Emissive mat.sTexEmissive mat.sTexEmissive.mTextureBlend
  ++ texProps TexKind.Ambient mat.sTexAmbient mat.sTexAmbient.mTextureBlend
  ++ texProps TexKind.Height mat.sTexBump mat.sTexBump.mTextureBlend
  ++ texProps TexKind.Shininess mat.sTexShininess mat.sTexBump.mTextureBlend
  ++ (if 0 < mat.mName.length then [(MatKey.NAME, PropVal.pstr mat.mName)] else [])

/-- First stored value for a property key. -/
def propLookup (key : MatKey) (props : List (MatKey × PropVal)) : Option PropVal :=
  (props.find? (fun p => p.1 == key)).map (fun p => p.2)

/-- A material whose shininess slot has a map and blend 3, while the bump
slot has no map but blend 7. -/
def shinyMat : MatBase :=
  { defaultConstructedMaterial.base with
    mName := "m"
    sTexShininess := { mMapName := "shine.png", mTextureBlend := some 3 }
    sTexBump := { mMapName := "", mTextureBlend := some 7 } }

/-- C9: the source stores the shininess map name under the shininess
texture key, but when the shininess slot's blend is set, the value stored
under the shininess texture-blend key is `sTexBump.mTextureBlend` — not the
shininess slot's own blend, contradicting the claim (a slip the spec's
design notes flag as a known source bug). -/
theorem shininess_blend_stores_bump_blend :
    propLookup (MatKey.TEXTURE TexKind.Shininess) (convertMaterial (0, 0, 0) shinyMat)
      = some (PropVal.pstr "shine.png") ∧
    shinyMat.sTexShininess.mTextureBlend = some 3 ∧
    propLookup (MatKey.TEXBLEND TexKind.Shininess) (convertMaterial (0, 0, 0) shinyMat)
      = some (PropVal.pflt (some 7)) ∧
    PropVal.pflt (some 7) ≠ PropVal.pflt (some 3) := by
  refine ⟨?_, rfl, ?_, by decide⟩ <;> rfl

/-- An output mesh (`aiMesh`).  The colour channels the importer puns into
transient back-pointers are modelled explicitly: channel 3 carries the
originating top-level material id, channel 2 a pointer to the source raw
mesh, channel 1 is read by `BuildNodes` but never written anywhere, and
channel 0 holds real vertex colours.  `none` models a NULL channel.  Bone
output is elided: no verified property mentions bones and they never
influence control flow. -/
structure OutMesh where
  mMaterialIndex : Nat
  mColors3 : Option Nat
  mColors2 : Option ASEMesh
  mColors1 : Option (String × String)
  mColors0 : Option (List V4)
  mNumVertices : Nat
  mNumFaces : Nat
  mVertices : List V3
  mNormals : List V3
  mTextureCoords : List (Option (List V3))
  mNumUVComponents : List Nat
  mFaces : List (Nat × Nat × Nat)
  deriving Repr, DecidableEq, Inhabited

/-- A freshly constructed `aiMesh` (all streams empty, channels NULL). -/
def defaultOutMesh : OutMesh :=
  { mMaterialIndex := 0
    mColors3 := none
    mColors2 := none
    mColors1 := none
    mColors0 := none
    mNumVertices := 0
    mNumFaces := 0
    mVertices := []
    mNormals := []
    mTextureCoords := [none, none, none, none]
    mNumUVComponents := [0, 0, 0, 0]
    mFaces := [] }

/-- In-place update of one list element (no-op when out of range). -/
def modifyAt (f : α → α) : List α → Nat → List α
  | [], _ => []
  | x :: rest, 0 => f x :: rest
  | x :: rest, n + 1 => x :: modifyAt f rest n

def setNeedBase (m : MatBase) : MatBase := { m with bNeed := true }

/-- Mark a top-level material as needed (`bNeed = true`). -/
def setNeedTop (mats : List ASEMaterial) (i : Nat) : List ASEMaterial :=
  modifyAt (fun m => { m with base := setNeedBase m.base }) mats i

/-- Mark submaterial `p` of top-level material `i` as needed. -/
def setNeedSub (mats : List ASEMaterial) (i p : Nat) : List ASEMaterial :=
  modifyAt (fun m => { m with avSubMaterials := modifyAt setNeedBase m.avSubMaterials p })
    mats i

/-- The material-index clamp at the top of `ConvertMeshes`: an out-of-range
index is replaced by `materials.size()-1` (with a logged warning). -/
def clampIndex (mats : List ASEMaterial) (i : Nat) : Nat :=
  if i < mats.length then i else mats.length - 1

/-- The bucket a face falls into when splitting on submaterials: its
submaterial id, or the last bucket when the id is out of range (with a
logged warning). -/
def effSubIndex (nSub : Nat) (f : ASEFace) : Nat :=
  if f.iMaterial < nSub then f.iMaterial else nSub - 1

/-- `aiSplit[p]`: the faces of bucket `p`, in face order.  The source
stores face indices; every use downstream immediately dereferences
`mesh.mFaces[index]`, so the bucket is modelled by the faces themselves. -/
def subBucket (faces : List ASEFace) (nSub p : Nat) : List ASEFace :=
  faces.filter (fun f => effSubIndex nSub f == p)

/-- The output mesh emitted for one non-empty submaterial bucket: `3·|bucket|`
vertices copied corner by corner through the (post-expansion) face indices,
`|bucket|` faces renumbered `(3q, 3q+1, 3q+2)`, submaterial id as material
index, and back-pointers in colour channels 3 and 2. -/
def splitOutMesh (mesh : ASEMesh) (iMat nSub p : Nat) : OutMesh :=
  let bucket := subBucket mesh.mFaces nSub p
  { mMaterialIndex := p
    mColors3 := some iMat
    mColors2 := some { mesh with iMaterialIndex := iMat }
    mColors1 := none
    mColors0 :=
      if mesh.mVertexColors.isEmpty then none
      else some (expandStream mesh.mVertexColors bucket (fun f => f.mIndices))
    mNumVertices := 3 * bucket.length
    mNumFaces := bucket.length
    mVertices := expandStream mesh.mPositions bucket (fun f => f.mIndices)
    mNormals := expandStream mesh.mNormals bucket (fun f => f.mIndices)
    mTextureCoords := (List.range AI_MAX_NUMBER_OF_TEXTURECOORDS).map (fun c =>
      if (mesh.amTexCoords.getD c []).isEmpty then none
      else some (expandStream (mesh.amTexCoords.getD c []) bucket (fun f => f.mIndices)))
    mNumUVComponents := (List.range AI_MAX_NUMBER_OF_TEXTURECOORDS).map (fun c =>
      if (mesh.amTexCoords.getD c []).isEmpty then 0
      else mesh.mNumUVComponents.getD c 0)
    mFaces := (List.range bucket.length).map (fun q => (3 * q, 3 * q + 1, 3 * q + 2)) }

/-- The single output mesh of the no-submaterial branch of `ConvertMeshes`:
material index is the `DEFAULT_MATINDEX` marker, streams are copied
verbatim; a mesh without faces or positions is returned as an empty dummy
(removed later by the orchestrator). -/
def directOutMesh (mesh : ASEMesh) (iMat : Nat) : OutMesh :=
  let base := { defaultOutMesh with
    mMaterialIndex := DEFAULT_MATINDEX
    mColors3 := some iMat
    mColors2 := some { mesh with iMaterialIndex := iMat } }
  if mesh.mFaces.isEmpty || mesh.mPositions.isEmpty then base
  else
    { base with
      mNumVertices := mesh.mPositions.length
      mNumFaces := mesh.mFaces.length
      mVertices := mesh.mPositions
      mNormals := mesh.mNormals
      mTextureCoords := (List.range AI_MAX_NUMBER_OF_TEXTURECOORDS).map (fun c =>
        if (mesh.amTexCoords.getD c []).isEmpty then none
        else some (mesh.amTexCoords.getD c []))
      mNumUVComponents := (List.range AI_MAX_NUMBER_OF_TEXTURECOORDS).map (fun c =>
        if (mesh.amTexCoords.getD c []).isEmpty then 0
        else mesh.mNumUVComponents.getD c 0)
      mColors0 := if mesh.mVertexColors.isEmpty then none else some mesh.mVertexColors
      mFaces := mesh.mFaces.map (fun f => f.mIndices) }

/-- `ASEImporter::ConvertMeshes`: clamp the material index; if the assigned
material has submaterials, bucket the faces by submaterial id and emit one
output mesh per non-empty bucket, marking each used submaterial as needed;
otherwise emit a single output mesh and mark the material needed.  Returns
the updated material list and the emitted output meshes. -/
def convertMeshes (mats : List ASEMaterial) (mesh : ASEMesh) :
    List ASEMaterial × List OutMesh :=
  let iMat := clampIndex mats mesh.iMaterialIndex
  let sub := (mats.getD iMat default).avSubMaterials
  if sub.isEmpty then
    (setNeedTop mats iMat, [directOutMesh mesh iMat])
  else
    let n := sub.length
    let mats' := (List.range n).foldl (fun acc p =>
      if (subBucket mesh.mFaces n p).isEmpty then acc else setNeedSub acc iMat p) mats
    let outs := (List.range n).filterMap (fun p =>
      if (subBucket mesh.mFaces n p).isEmpty then none
      else some (splitOutMesh mesh iMat n p))
    (mats', outs)

theorem effSubIndex_lt (n : Nat) (hn : 0 < n) (f : ASEFace) : effSubIndex n f < n := by
  unfold effSubIndex; split <;> omega

theorem sum_map_add_distrib (ps : List Nat) (f g : Nat → Nat) :
    (ps.map (fun p => f p + g p)).sum = (ps.map f).sum + (ps.map g).sum := by
  induction ps with
  | nil => rfl
  | cons a l ih => simp [ih]; omega

theorem sum_map_indicator (n v : Nat) (hv : v < n) :
    ((List.range n).map (fun p => if v = p then 1 else 0)).sum = 1 := by
  induction n with
  | zero => omega
  | succ k ih =>
      rw [List.range_succ, List.map_append, List.sum_append]
      by_cases h : v = k
      · subst h
        have hz : ((List.range v).map (fun p => if v = p then 1 else 0)).sum = 0 := by
          apply List.sum_eq_zero
          intro x hx
          obtain ⟨p, hp, rfl⟩ := List.mem_map.1 hx
          have : p < v := List.mem_range.1 hp
          simp [Nat.ne_of_gt this]
        simp [hz]
      · have hvk : v < k := by omega
        simp [ih hvk, h]

/-- Every face lands in exactly one bucket, so bucket sizes sum to the face
count. -/
theorem bucket_partition (faces : List ASEFace) (n : Nat) (hn : 0 < n) :
    ((List.range n).map (fun p => (subBucket faces n p).length)).sum = faces.length := by
  induction faces with
  | nil => simp [subBucket]
  | cons hd tl ih =>
      have hsplit : ∀ p, (subBucket (hd :: tl) n p).length
          = (if effSubIndex n hd = p then 1 else 0) + (subBucket tl n p).length := by
        intro p
        by_cases hp : effSubIndex n hd = p <;>
          simp [subBucket, List.filter_cons, hp, Nat.add_comm]
      simp only [hsplit]
      rw [sum_map_add_distrib, sum_map_indicator n _ (effSubIndex_lt n hn hd), ih]
      simp [Nat.add_comm]

theorem filterMap_if_eq (l : List Nat) (c : Nat → Bool) (g : Nat → β) :
    (l.filterMap (fun p => if c p then none else some (g p)))
      = (l.filter (fun p => !c p)).map g := by
  induction l with
  | nil => rfl
  | cons a t ih =>
      by_cases h : c a <;> simp [List.filterMap_cons, List.filter_cons, h, ih]

theorem sum_lengths_filter_nonempty (ps : List Nat) (B : Nat → List ASEFace) :
    ((ps.filter (fun p => !(B p).isEmpty)).map (fun p => (B p).length)).sum
      = (ps.map (fun p => (B p).length)).sum := by
  induction ps with
  | nil => rfl
  | cons a t ih =>
      by_cases h : (B a).isEmpty
      · have h0 : (B a).length = 0 := by
          rw [List.isEmpty_iff] at h; simp [h]
        simp [List.filter_cons, h, ih, h0]
      · simp [List.filter_cons, h, ih]

/-- Submaterial count of the material assigned to a mesh (after clamping). -/
def meshSubCount (mats : List ASEMaterial) (mesh : ASEMesh) : Nat :=
  (mats.getD (clampIndex mats mesh.iMaterialIndex) default).avSubMaterials.length

/-- C4: for a raw mesh whose assigned material has submaterials, the face
counts of the emitted output meshes sum to the input face count (faces with
out-of-range submaterial ids counting toward the last bucket), one output
mesh is emitted per non-empty bucket carrying exactly that bucket's faces,
and every emitted mesh has 3 vertices per face. -/
theorem submaterial_split_mass_conservation (mats : List ASEMaterial) (mesh : ASEMesh)
    (hsub : (mats.getD (clampIndex mats mesh.iMaterialIndex) default).avSubMaterials ≠ []) :
    (((convertMeshes mats mesh).2.map (fun om => om.mNumFaces)).sum = mesh.mFaces.length) ∧
    ((convertMeshes mats mesh).2
      = ((List.range (meshSubCount mats mesh)).filter
            (fun p => !(subBucket mesh.mFaces (meshSubCount mats mesh) p).isEmpty)).map
          (splitOutMesh mesh (clampIndex mats mesh.iMaterialIndex) (meshSubCount mats mesh))) ∧
    (∀ p, (splitOutMesh mesh (clampIndex mats mesh.iMaterialIndex) (meshSubCount mats mesh) p).mNumFaces
        = (subBucket mesh.mFaces (meshSubCount mats mesh) p).length) ∧
    (∀ om ∈ (convertMeshes mats mesh).2, om.mNumVertices = 3 * om.mNumFaces) := by
  have hne : ((mats.getD (clampIndex mats mesh.iMaterialIndex) default).avSubMaterials).isEmpty = false := by
    simp only [Bool.eq_false_iff, ne_eq, List.isEmpty_iff]
    exact hsub
  have houts : (convertMeshes mats mesh).2
      = ((List.range (meshSubCount mats mesh)).filter
            (fun p => !(subBucket mesh.mFaces (meshSubCount mats mesh) p).isEmpty)).map
          (splitOutMesh mesh (clampIndex mats mesh.iMaterialIndex) (meshSubCount mats mesh)) := by
    simp only [convertMeshes, hne, Bool.false_eq_true, if_false, meshSubCount]
    exact filterMap_if_eq _ _ _
  have hn : 0 < meshSubCount mats mesh := List.length_pos.2 hsub
  refine ⟨?_, houts, fun p => rfl, ?_⟩
  · rw [houts]
    rw [List.map_map]
    have : (splitOutMesh mesh (clampIndex mats mesh.iMaterialIndex) (meshSubCount mats mesh) · |>.mNumFaces)
        ∘ id = fun p => (subBucket mesh.mFaces (meshSubCount mats mesh) p).length := rfl
    calc (((List.range (meshSubCount mats mesh)).filter
            (fun p => !(subBucket mesh.mFaces (meshSubCount mats mesh) p).isEmpty)).map
            (fun om => (splitOutMesh mesh (clampIndex mats mesh.iMaterialIndex)
              (meshSubCount mats mesh) om).mNumFaces)).sum
        = (((List.range (meshSubCount mats mesh)).filter
            (fun p => !(subBucket mesh.mFaces (meshSubCount mats mesh) p).isEmpty)).map
            (fun p => (subBucket mesh.mFaces (meshSubCount mats mesh) p).length)).sum := rfl
      _ = (((List.range (meshSubCount mats mesh))).map
            (fun p => (subBucket mesh.mFaces (meshSubCount mats mesh) p).length)).sum :=
          sum_lengths_filter_nonempty _ _
      _ = mesh.mFaces.length := bucket_partition mesh.mFaces _ hn
  · intro om hom
    rw [houts] at hom
    obtain ⟨p, hp, rfl⟩ := List.mem_map.1 hom
    rfl

/-- Concrete input for the split: one material with two submaterials, one
mesh with three faces using submaterial ids 0, 1, and the out-of-range 7. -/
def splitMats : List ASEMaterial :=
  [{ base := defaultConstructedMaterial.base
     avSubMaterials := [defaultConstructedMaterial.base, defaultConstructedMaterial.base] }]

def splitMesh : ASEMesh :=
  { triMesh with
    iMaterialIndex := 0
    mFaces :=
      [{ mIndices := (2, 1, 0), amUVIndices := [], mColorIndices := (0, 0, 0),
         iMaterial := 0, iSmoothGroup := 1 },
       { mIndices := (5, 4, 3), amUVIndices := [], mColorIndices := (0, 0, 0),
         iMaterial := 1, iSmoothGroup := 1 },
       { mIndices := (8, 7, 6), amUVIndices := [], mColorIndices := (0, 0, 0),
         iMaterial := 7, iSmoothGroup := 1 }] }

theorem submaterial_split_witness :
    (splitMats.getD (clampIndex splitMats splitMesh.iMaterialIndex) default).avSubMaterials ≠ [] ∧
    ((convertMeshes splitMats splitMesh).2.map (fun om => om.mNumFaces)).sum
      = splitMesh.mFaces.length :=
  ⟨by decide, (submaterial_split_mass_conservation splitMats splitMesh (by decide)).1⟩

/-- One bone-animation channel (`aiBoneAnim`).  The count fields are kept
separate from the key lists because the source sets the rotation-key count
from the position-key vector. -/
structure BoneAnim where
  mBoneName : String
  mNumPositionKeys : Nat
  mPositionKeys : List (ℚ × V3)
  mNumRotationKeys : Nat
  mRotationKeys : List (ℚ × V4)
  deriving Repr, DecidableEq, Inhabited

/-- The output animation (`aiAnimation`). -/
structure Animation where
  mTicksPerSecond : Nat
  mDuration : ℚ
  mBones : List BoneAnim
  deriving Repr, DecidableEq, Inhabited

/-- Initial `mDuration` of a freshly constructed animation container.
Modelled from the spec: the constructor lives in a header outside the
source file; a neutral initial value of 0 is assumed. -/
def initialAnimDuration : ℚ := 0

/-- A mesh contributes a channel iff it is not skipped and has more than
one position or rotation key. -/
def qualifies (m : ASEMesh) : Bool :=
  !m.bSkip && (m.mAnim.akeyPositions.length > 1 || m.mAnim.akeyRotations.length > 1)

/-- The channel emitted for one qualifying mesh.  The source sizes the
rotation keys with `akeyPositions.size()` (not `akeyRotations.size()`):
the stored count is the position-key count, and when it exceeds the
rotation-key vector the `memcpy` reads past it (undefined behavior) — the
model keeps the validly copied prefix. -/
def mkBoneAnim (m : ASEMesh) : BoneAnim :=
  let posKeys := if m.mAnim.akeyPositions.length > 1 then m.mAnim.akeyPositions else []
  let numPos := if m.mAnim.akeyPositions.length > 1 then m.mAnim.akeyPositions.length else 0
  let rotKeys := if m.mAnim.akeyRotations.length > 1 then
      m.mAnim.akeyRotations.take m.mAnim.akeyPositions.length else []
  let numRot := if m.mAnim.akeyRotations.length > 1 then m.mAnim.akeyPositions.length else 0
  { mBoneName := m.mName
    mNumPositionKeys := numPos
    mPositionKeys := posKeys
    mNumRotationKeys := numRot
    mRotationKeys := rotKeys }

/-- All emitted key times, in the order the source's duration loops visit
them (per channel: position keys then rotation keys). -/
def animKeyTimes (bones : List BoneAnim) : List ℚ :=
  bones.flatMap (fun b => b.mPositionKeys.map (fun k => k.1) ++ b.mRotationKeys.map (fun k => k.1))

/-- `ASEImporter::BuildAnimations`: no animation when no mesh qualifies;
otherwise one animation with a channel per qualifying mesh,
`ticks_per_second = frame_speed * ticks_per_frame`, and the duration
accumulated by `std::max` over every emitted key time. -/
def buildAnimations (frameSpeed ticksPerFrame : Nat) (meshes : List ASEMesh) :
    Option Animation :=
  let qual := meshes.filter qualifies
  if qual.isEmpty then none
  else
    let bones := qual.map mkBoneAnim
    some { mTicksPerSecond := frameSpeed * ticksPerFrame
           mDuration := (animKeyTimes bones).foldl (fun a t => max a t) initialAnimDuration
           mBones := bones }

theorem foldl_max_spec (l : List ℚ) (a : ℚ) :
    a ≤ l.foldl (fun x t => max x t) a ∧
    (∀ t ∈ l, t ≤ l.foldl (fun x t => max x t) a) ∧
    (l.foldl (fun x t => max x t) a = a ∨ l.foldl (fun x t => max x t) a ∈ l) := by
  induction l generalizing a with
  | nil => simp
  | cons x xs ih =>
      obtain ⟨h1, h2, h3⟩ := ih (max a x)
      refine ⟨le_trans (le_max_left a x) h1, ?_, ?_⟩
      · intro t ht
        rcases List.mem_cons.1 ht with rfl | ht'
        · exact le_trans (le_max_right a t) h1
        · exact h2 t ht'
      · rw [List.foldl_cons]
        rcases h3 with h | h
        · rcases max_choice a x with hm | hm
          · exact Or.inl (by rw [h, hm])
          · exact Or.inr (by rw [h, hm]; exact List.mem_cons_self x xs)
        · exact Or.inr (List.mem_cons_of_mem x h)

/-- C7 (amended): for every emitted animation, the duration is an upper
bound of every emitted key time, is at least the initial duration (0), and
is either that initial duration or one of the emitted key times — together:
it equals the maximum of 0 and the emitted key times, i.e. the largest key
time whenever that is at least 0, but stays 0 when all key times are
negative. -/
theorem animation_duration_law (fs tf : Nat) (meshes : List ASEMesh) (anim : Animation)
    (h : buildAnimations fs tf meshes = some anim) :
    (∀ t ∈ animKeyTimes anim.mBones, t ≤ anim.mDuration) ∧
    (initialAnimDuration ≤ anim.mDuration) ∧
    (anim.mDuration = initialAnimDuration ∨ anim.mDuration ∈ animKeyTimes anim.mBones) := by
  unfold buildAnimations at h
  by_cases he : (meshes.filter qualifies).isEmpty
  · simp [he] at h
  · simp only [he, Bool.false_eq_true, if_false, Option.some.injEq] at h
    subst h
    obtain ⟨h1, h2, h3⟩ := foldl_max_spec
      (animKeyTimes ((meshes.filter qualifies).map mkBoneAnim)) initialAnimDuration
    exact ⟨h2, h1, h3⟩

/-- Mesh with two position keys at negative times. -/
def negTimeMesh : ASEMesh :=
  { triMesh with
    mName := "neg"
    mAnim := { akeyPositions := [(-5, (0, 0, 0)), (-3, (1, 0, 0))], akeyRotations := [] } }

/-- C7 counterexample: with all key times negative, the emitted duration is
the initial 0, which is not the maximum (-3) of the emitted key times, so
the claim as stated fails. -/
theorem animation_duration_counterexample :
    ((buildAnimations 1 1 [negTimeMesh]).map (fun a => a.mDuration) = some 0) ∧
    ((buildAnimations 1 1 [negTimeMesh]).map (fun a => animKeyTimes a.mBones)
        = some [(-5 : ℚ), (-3 : ℚ)]) ∧
    (0 : ℚ) ∉ [(-5 : ℚ), (-3 : ℚ)] := by
  refine ⟨rfl, rfl, by decide⟩

/-- Mesh with three position keys at times 0, 1, 2 (scenario S6). -/
def posTimeMesh : ASEMesh :=
  { triMesh with
    mName := "bone1"
    mAnim := { akeyPositions := [(0, (0, 0, 0)), (1, (0, 0, 0)), (2, (0, 0, 0))]
               akeyRotations := [] } }

def fallbackAnim : Animation :=
  { mTicksPerSecond := 0, mDuration := 0, mBones := [] }

theorem animation_duration_witness :
    (∀ t ∈ animKeyTimes ((buildAnimations 1 1 [posTimeMesh]).getD fallbackAnim).mBones,
        t ≤ ((buildAnimations 1 1 [posTimeMesh]).getD fallbackAnim).mDuration) ∧
    (initialAnimDuration ≤ ((buildAnimations 1 1 [posTimeMesh]).getD fallbackAnim).mDuration) ∧
    (((buildAnimations 1 1 [posTimeMesh]).getD fallbackAnim).mDuration = initialAnimDuration ∨
      ((buildAnimations 1 1 [posTimeMesh]).getD fallbackAnim).mDuration
        ∈ animKeyTimes ((buildAnimations 1 1 [posTimeMesh]).getD fallbackAnim).mBones) :=
  animation_duration_law 1 1 [posTimeMesh] _ rfl

/-- Mesh with three rotation keys and no position keys. -/
def rotOnlyMesh : ASEMesh :=
  { triMesh with
    mName := "bone1"
    mAnim := { akeyPositions := []
               akeyRotations := [(0, (0, 0, 0, 1)), (1, (0, 0, 0, 1)), (2, (0, 0, 0, 1))] } }

/-- C8: the source sizes the rotation-key array with
`akeyPositions.size()`.  A non-skipped mesh with 3 rotation keys and 0
position keys qualifies, yet its emitted channel stores 0 rotation keys —
not the mesh's rotation key sequence. -/
theorem rotation_key_count_bug :
    rotOnlyMesh.bSkip = false ∧
    rotOnlyMesh.mAnim.akeyRotations.length = 3 ∧
    ((buildAnimations 1 1 [rotOnlyMesh]).map
        (fun a => a.mBones.map (fun b => (b.mNumRotationKeys, b.mRotationKeys.length)))
      = some [(0, 0)]) := by
  refine ⟨rfl, rfl, rfl⟩

/-- ASCII lower-casing of a character code (`ASSIMP_stricmp` tolower). -/
def lcVal (c : Char) : Nat :=
  if 65 ≤ c.toNat ∧ c.toNat ≤ 90 then c.toNat + 32 else c.toNat

/-- Lower-cased character codes of a string. -/
def lowerKey (s : String) : List Nat := s.data.map lcVal

/-- Case-insensitive ASCII string equality (`ASSIMP_stricmp(a,b) == 0`). -/
def striEq (a b : String) : Bool := lowerKey a == lowerKey b

/-- The mesh-selection test of `AddNodes`: under a named node the mesh's
parent string must have the node name's length and compare equal
case-insensitively; under the root (NULL name) the parent string must be
empty. -/
def nodeMatches (szName : Option String) (parent : String) : Bool :=
  match szName with
  | some s => s.length == parent.length && striEq s parent
  | none => parent == ""

/-- An output scene-graph node (`aiNode`).  Parent pointers are
represented structurally: the source sets `mParent` exactly to the node
under whose child array a node is stored, so a node's parent is the node
holding it and the returned root has a NULL parent. -/
inductive Node where
  | mk (mName : String) (mMeshes : List Nat) (mChildren : List Node)
  deriving Repr

instance : Inhabited Node := ⟨Node.mk "" [] []⟩

def Node.name : Node → String
  | Node.mk n _ _ => n

def Node.meshes : Node → List Nat
  | Node.mk _ m _ => m

def Node.children : Node → List Node
  | Node.mk _ _ c => c

/-- One level of `AddNodes`' scan over the scene's meshes: dereference the
source mesh from colour channel 2, match its parent string against the
current node name, and for each match emit a node carrying the mesh's name
and index whose children come from `descend`ing with that name.  The
source's `if (!szMyName)` filter (a test on a stack array) is always false
and drops nothing. -/
def addNodesLevel (szName : Option String) (descend : String → Option (List Node)) :
    Nat → List OutMesh → Option (List Node)
  | _, [] => some []
  | i, om :: rest =>
    let src := om.mColors2.getD default
    if nodeMatches szName src.mParent then
      (descend src.mName).bind (fun ch =>
        (addNodesLevel szName descend (i + 1) rest).map (fun ns =>
          Node.mk src.mName [i] ch :: ns))
    else addNodesLevel szName descend (i + 1) rest

/-- Fueled model of the recursion `ASEImporter::AddNodes`: one unit of
fuel per recursion depth.  The C++ recursion carries no fuel; `none`
models the call not returning within the given depth, and
`∀ fuel, _ = none` models divergence. -/
def addNodesDepth (meshes : List OutMesh) : Nat → Option String → Option (List Node)
  | 0, _ => none
  | fuel + 1, szName =>
      addNodesLevel szName (fun nm => addNodesDepth meshes fuel (some nm)) 0 meshes

/-- The root invocation `AddNodes(root, NULL)`. -/
def addNodes (meshes : List OutMesh) (fuel : Nat) : Option (List Node) :=
  addNodesDepth meshes fuel none

/-- The `bKnowParent` scan of `BuildNodes`.  Faithfully to the source, the
length test compares mesh `i`'s *name* length with mesh `i2`'s *parent*
length while the `stricmp` compares mesh `i`'s parent with mesh `i2`'s
name. -/
def knowParent (meshes : List OutMesh) (i : Nat) : Bool :=
  let src := (meshes.getD i default).mColors2.getD default
  meshes.enum.any (fun p =>
    if p.1 == i then false
    else
      let src2 := p.2.mColors2.getD default
      src.mName.length == src2.mParent.length && striEq src.mParent src2.mName)

/-- Indices of meshes whose parent was not recognized. -/
def orphanList (meshes : List OutMesh) : List Nat :=
  (List.range meshes.length).filter (fun i => !knowParent meshes i)

/-- The orphan-attachment loop of `BuildNodes`.  It reads the name pair
from colour channel 1 (`mColors[1]`), which no code in the importer ever
writes: the channel is always NULL, every iteration `continue`s, and the
synthetic parent node is dead code.  The channel is modelled anyway so the
loop's shape matches the source. -/
def orphanNodes (meshes : List OutMesh) (fuel : Nat) : List Nat → Option (List Node)
  | [] => some []
  | i :: rest =>
    match (meshes.getD i default).mColors1 with
    | none => orphanNodes meshes fuel rest
    | some pr =>
      match addNodesDepth meshes fuel (some pr.2) with
      | none => none
      | some ch => (orphanNodes meshes fuel rest).map (fun ns => Node.mk pr.2 [] ch :: ns)

/-- The children the `<root>` node holds after `BuildNodes`' recursive
build and orphan pass. -/
def rootChildren (meshes : List OutMesh) (fuel : Nat) : Option (List Node) :=
  (addNodes meshes fuel).bind (fun rc =>
    let aiL := orphanList meshes
    if aiL.isEmpty then some rc
    else (orphanNodes meshes fuel aiL).map (fun extra => rc ++ extra))

/-- Import failures of the modelled stage. -/
inductive ImportError
  | emptyScene
  deriving Repr, DecidableEq

/-- `ASEImporter::BuildNodes`: build the root's children; a single child
replaces the root (its parent becoming NULL), no children is the
empty/corrupt-file error, otherwise the synthetic `<root>` node is kept. -/
def buildNodes (meshes : List OutMesh) (fuel : Nat) : Option (Except ImportError Node) :=
  (rootChildren meshes fuel).map (fun children =>
    if children.length = 1 then Except.ok (children.headD default)
    else if children.length = 0 then Except.error ImportError.emptyScene
    else Except.ok (Node.mk "<root>" [] children))

/-- C5: whenever the recursive build returns, a `<root>` with exactly one
child is replaced by that child (whose parent is then NULL, represented by
its being returned as the root), and a `<root>` with no children aborts
the import with the empty-scene error. -/
theorem root_promotion_and_empty_scene (meshes : List OutMesh) (fuel : Nat)
    (cs : List Node) (h : rootChildren meshes fuel = some cs) :
    (∀ c, cs = [c] → buildNodes meshes fuel = some (Except.ok c)) ∧
    (cs = [] → buildNodes meshes fuel = some (Except.error ImportError.emptyScene)) := by
  constructor
  · intro c hc
    subst hc
    simp [buildNodes, h]
  · intro hc
    subst hc
    simp [buildNodes, h]

/-- An output mesh as the hierarchy builder sees it: colour channel 2
pointing at a source mesh carrying the given name and parent name, colour
channel 1 never written. -/
def hierMesh (name parent : String) : OutMesh :=
  { defaultOutMesh with
    mNumFaces := 1
    mNumVertices := 3
    mColors2 := some { triMesh with mName := name, mParent := parent } }

theorem root_promotion_witness :
    (∀ c, [Node.mk "X" [0] []] = [c] →
        buildNodes [hierMesh "X" ""] 2 = some (Except.ok c)) ∧
    ([Node.mk "X" [0] []] = [] →
        buildNodes [hierMesh "X" ""] 2 = some (Except.error ImportError.emptyScene)) :=
  root_promotion_and_empty_scene [hierMesh "X" ""] 2 [Node.mk "X" [0] []] rfl

/-- Scenario S4: X's parent "Ghost" names no mesh; Y hangs below X. -/
def s4Meshes : List OutMesh := [hierMesh "X" "Ghost", hierMesh "Y" "X"]

/-- C2: the orphan-attachment pass reads colour channel 1, which is never
written, so the synthetic "Ghost" node the spec promises is never created:
on scenario S4 neither X nor Y is attached to any node and the build
aborts with the empty-scene error instead of returning the
Ghost -> X -> Y hierarchy. -/
theorem orphan_mesh_never_attached :
    buildNodes s4Meshes 4 = some (Except.error ImportError.emptyScene) ∧
    (s4Meshes.getD 0 default).mColors1 = none ∧
    (s4Meshes.getD 1 default).mColors1 = none := by
  refine ⟨rfl, rfl, rfl⟩

/-- Name of the raw mesh an output mesh points back at. -/
def OutMesh.srcName (om : OutMesh) : String := (om.mColors2.getD default).mName

/-- Parent name of the raw mesh an output mesh points back at. -/
def OutMesh.srcParent (om : OutMesh) : String := (om.mColors2.getD default).mParent

theorem lowerKey_eq_nil_iff (s : String) : lowerKey s = [] ↔ s = "" := by
  constructor
  · intro h
    have hd : s.data = [] := List.map_eq_nil_iff.1 h
    exact String.ext (by simp [hd])
  · rintro rfl; rfl

theorem nodeMatches_some (s par : String) :
    nodeMatches (some s) par = true ↔ (s.length = par.length ∧ lowerKey s = lowerKey par) := by
  simp [nodeMatches, striEq]

theorem nodeMatches_none (par : String) : nodeMatches none par = true ↔ par = "" := by
  simp [nodeMatches]

/-- Invariant of a descent of `AddNodes`: `chain` is the stack of meshes
matched on the way down (most recent first); all lie in the scene, none
repeats, consecutive entries are linked parent-name-to-name, the current
node name is the most recent mesh's name (NULL at the root), and the
bottom-most mesh matched the root's empty-parent test. -/
structure ChainInv (meshes chain : List OutMesh) (szName : Option String) : Prop where
  subset : ∀ c ∈ chain, c ∈ meshes
  nodup : chain.Nodup
  adj : List.Chain' (fun a b => lowerKey a.srcParent = lowerKey b.srcName) chain
  headName : ∀ v rest, chain = v :: rest → szName = some v.srcName
  noneEmpty : chain = [] → szName = none
  lastRoot : ∀ v, chain.getLast? = some v → v.srcParent = ""

theorem srcName_inj (meshes : List OutMesh)
    (hdist : meshes.Pairwise (fun a b => lowerKey a.srcName ≠ lowerKey b.srcName)) :
    ∀ a ∈ meshes, ∀ b ∈ meshes, lowerKey a.srcName = lowerKey b.srcName → a = b := by
  intro a ha b hb hab
  by_contra hne'
  have hsymm : Symmetric (fun (a b : OutMesh) => lowerKey a.srcName ≠ lowerKey b.srcName) :=
    fun _ _ h he => h he.symm
  exact List.Pairwise.forall hsymm hdist ha hb hne' hab

/-- Under case-insensitively distinct, non-empty mesh names, a mesh that
matches the current node name cannot already be on the descent chain. -/
theorem matched_not_mem (meshes chain : List OutMesh) (szName : Option String)
    (hdist : meshes.Pairwise (fun a b => lowerKey a.srcName ≠ lowerKey b.srcName))
    (hne : ∀ om ∈ meshes, om.srcName ≠ "")
    (hinv : ChainInv meshes chain szName)
    (m : OutMesh) (hm : m ∈ meshes)
    (hmatch : nodeMatches szName m.srcParent = true) :
    m ∉ chain := by
  intro hmem
  cases chain with
  | nil => simp at hmem
  | cons v tail =>
      have hsz : szName = some v.srcName := hinv.headName v tail rfl
      subst hsz
      have hpm : lowerKey v.srcName = lowerKey m.srcParent :=
        ((nodeMatches_some _ _).1 hmatch).2
      obtain ⟨pre, post, hsplit⟩ := List.append_of_mem hmem
      cases post with
      | nil =>
          have hlast : (v :: tail).getLast? = some m := by
            rw [hsplit]; exact List.getLast?_concat pre
          have hroot : m.srcParent = "" := hinv.lastRoot m hlast
          have hkey : lowerKey v.srcName = [] := by rw [hpm, hroot]; rfl
          exact hne v (hinv.subset v (by simp)) ((lowerKey_eq_nil_iff _).1 hkey)
      | cons w post' =>
          have hinfix : [m, w] <:+: (v :: tail) :=
            ⟨pre, post', by rw [hsplit]; simp⟩
          have hchain2 : List.Chain' (fun a b => lowerKey a.srcParent = lowerKey b.srcName) [m, w] :=
            hinv.adj.infix hinfix
          have hrel : lowerKey m.srcParent = lowerKey w.srcName := by
            simpa [List.chain'_cons] using hchain2
          have hwv : lowerKey w.srcName = lowerKey v.srcName := by
            rw [← hrel, ← hpm]
          have hwchain : w ∈ v :: tail := by rw [hsplit]; simp
          have hweq : w = v :=
            srcName_inj meshes hdist w (hinv.subset w hwchain) v (hinv.subset v (by simp)) hwv
          have hwtail : w ∈ tail := by
            cases pre with
            | nil =>
                injection hsplit with h1 h2
                rw [h2]; simp
            | cons p pre' =>
                injection hsplit with h1 h2
                rw [h2]; simp
          have hvnot : v ∉ tail := (List.nodup_cons.1 hinv.nodup).1
          rw [hweq] at hwtail
          exact hvnot hwtail

/-- A successful match extends the chain invariant by one mesh. -/
theorem chainInv_extend (meshes chain : List OutMesh) (szName : Option String)
    (hinv : ChainInv meshes chain szName) (m : OutMesh) (hm : m ∈ meshes)
    (hmatch : nodeMatches szName m.srcParent = true) (hnot : m ∉ chain) :
    ChainInv meshes (m :: chain) (some m.srcName) := by
  refine ⟨?_, ?_, ?_, ?_, ?_, ?_⟩
  · intro c hc
    rcases List.mem_cons.1 hc with rfl | hc'
    · exact hm
    · exact hinv.subset c hc'
  · exact List.nodup_cons.2 ⟨hnot, hinv.nodup⟩
  · cases chain with
    | nil => simp
    | cons v tail =>
        have hsz : szName = some v.srcName := hinv.headName v tail rfl
        subst hsz
        exact List.chain'_cons.2
          ⟨(((nodeMatches_some _ _).1 hmatch).2).symm, hinv.adj⟩
  · intro v rest h
    injection h with h1 h2
    rw [h1]
  · intro h
    simp at h
  · intro v hv
    cases chain with
    | nil =>
        have hsz : szName = none := hinv.noneEmpty rfl
        subst hsz
        have hv' : m = v := by simpa using hv
        subst hv'
        exact (nodeMatches_none _).1 hmatch
    | cons c cs =>
        have hshift : (m :: c :: cs).getLast? = (c :: cs).getLast? :=
          List.getLast?_cons_cons
        exact hinv.lastRoot v (by rw [← hshift]; exact hv)

theorem addNodesDepth_isSome (meshes : List OutMesh)
    (hdist : meshes.Pairwise (fun a b => lowerKey a.srcName ≠ lowerKey b.srcName))
    (hne : ∀ om ∈ meshes, om.srcName ≠ "") :
    ∀ fuel chain szName, ChainInv meshes chain szName →
      meshes.length + 1 ≤ fuel + chain.length →
      (addNodesDepth meshes fuel szName).isSome = true := by
  intro fuel
  induction fuel with
  | zero =>
      intro chain szName hinv hb
      exfalso
      have hlen : chain.length ≤ meshes.length :=
        (hinv.nodup.subperm hinv.subset).length_le
      omega
  | succ f ih =>
      intro chain szName hinv hb
      show (addNodesLevel szName (fun nm => addNodesDepth meshes f (some nm)) 0 meshes).isSome
        = true
      have hlevel : ∀ pending, (∀ om ∈ pending, om ∈ meshes) → ∀ i,
          (addNodesLevel szName (fun nm => addNodesDepth meshes f (some nm)) i pending).isSome
            = true := by
        intro pending
        induction pending with
        | nil => intro _ i; rfl
        | cons om rest ihp =>
            intro hsub i
            have hrest := ihp (fun x hx => hsub x (List.mem_cons_of_mem om hx)) (i + 1)
            by_cases hmatch : nodeMatches szName (om.mColors2.getD default).mParent = true
            · have hommem : om ∈ meshes := hsub om (List.mem_cons_self om rest)
              have hnot : om ∉ chain :=
                matched_not_mem meshes chain szName hdist hne hinv om hommem hmatch
              have hinv' : ChainInv meshes (om :: chain) (some om.srcName) :=
                chainInv_extend meshes chain szName hinv om hommem hmatch hnot
              have hdesc := ih (om :: chain) (some om.srcName) hinv'
                (by simp only [List.length_cons]; omega)
              obtain ⟨ch, hch⟩ := Option.isSome_iff_exists.1 hdesc
              obtain ⟨ns, hns⟩ := Option.isSome_iff_exists.1 hrest
              simp [addNodesLevel, hmatch, OutMesh.srcName] at hch ⊢
              rw [hch, hns]
              rfl
            · simpa [addNodesLevel, hmatch] using hrest
      exact hlevel meshes (fun _ h => h) 0

/-- C10 (amended): the `AddNodes` recursion terminates — fuel
`|meshes| + 1` suffices — for every finite list of output meshes whose
source names are pairwise case-insensitively distinct and non-empty. -/
theorem addNodes_terminates_of_distinct_names (meshes : List OutMesh)
    (hdist : meshes.Pairwise (fun a b => lowerKey a.srcName ≠ lowerKey b.srcName))
    (hne : ∀ om ∈ meshes, om.srcName ≠ "") :
    (addNodes meshes (meshes.length + 1)).isSome = true :=
  addNodesDepth_isSome meshes hdist hne (meshes.length + 1) [] none
    ⟨by simp, List.nodup_nil, List.chain'_nil,
     fun v rest h => absurd h (by simp),
     fun _ => rfl,
     fun v hv => by simp at hv⟩
    (by simp)

theorem addNodes_termination_witness :
    (addNodes [hierMesh "A" "", hierMesh "B" "A"] 3).isSome = true :=
  addNodes_terminates_of_distinct_names [hierMesh "A" "", hierMesh "B" "A"]
    (by decide) (by decide)

/-- Duplicate mesh names closing a parent cycle: a mesh named "A" at the
root, "B" under "A", and a second mesh named "A" under "B". -/
def cycMeshes : List OutMesh :=
  [hierMesh "A" "", hierMesh "B" "A", hierMesh "A" "B"]

theorem cyc_levels_none : ∀ f,
    addNodesDepth cycMeshes f (some "A") = none ∧
    addNodesDepth cycMeshes f (some "B") = none := by
  intro f
  induction f with
  | zero => exact ⟨rfl, rfl⟩
  | succ f ih =>
      refine ⟨?_, ?_⟩
      · have h := ih.2
        calc addNodesDepth cycMeshes (f + 1) (some "A")
            = (addNodesDepth cycMeshes f (some "B")).bind _ := rfl
          _ = none := by rw [h]; rfl
      · have h := ih.1
        calc addNodesDepth cycMeshes (f + 1) (some "B")
            = (addNodesDepth cycMeshes f (some "A")).bind _ := rfl
          _ = none := by rw [h]; rfl

theorem cyc_top_none : ∀ f, addNodes cycMeshes f = none := by
  intro f
  cases f with
  | zero => rfl
  | succ f =>
      have h := (cyc_levels_none f).1
      calc addNodes cycMeshes (f + 1)
          = (addNodesDepth cycMeshes f (some "A")).bind _ := rfl
        _ = none := by rw [h]; rfl

/-- C10 counterexample: on `cycMeshes` — which has duplicate mesh names —
the `AddNodes` recursion never returns, for any recursion depth: the
claimed termination on all inputs fails. -/
theorem addNodes_cycle_diverges :
    ¬ ∃ fuel, (addNodes cycMeshes fuel).isSome = true := by
  rintro ⟨fuel, hf⟩
  rw [cyc_top_none fuel] at hf
  simp at hf

/-- The (top-level, submaterial) key an output mesh references before
flattening: colour channel 3 carries the top-level id, and a material index
equal to the `DEFAULT_MATINDEX` marker means the top-level material itself
(`BuildMaterialIndices` lines matching `DEFAULT_MATINDEX == mMaterialIndex`),
any other value the submaterial of that index. -/
def outMeshRef (om : OutMesh) : Option (Nat × Option Nat) :=
  om.mColors3.map (fun iMat =>
    (iMat, if om.mMaterialIndex = DEFAULT_MATINDEX then none else some om.mMaterialIndex))

/-- `needed` flag of top-level material `i` (false when out of range). -/
def needTop (mats : List ASEMaterial) (i : Nat) : Bool :=
  (mats.getD i default).base.bNeed

/-- `needed` flag of submaterial `p` of material `i` (false out of range). -/
def needSub (mats : List ASEMaterial) (i p : Nat) : Bool :=
  ((mats.getD i default).avSubMaterials.getD p default).bNeed

/-- Number of submaterials of material `i`. -/
def subCount (mats : List ASEMaterial) (i : Nat) : Nat :=
  (mats.getD i default).avSubMaterials.length

theorem length_modifyAt (f : α → α) (l : List α) (j : Nat) :
    (modifyAt f l j).length = l.length := by
  induction l generalizing j with
  | nil => rfl
  | cons x xs ih => cases j <;> simp [modifyAt, ih]

theorem getD_modifyAt [Inhabited α] (f : α → α) (l : List α) (j i : Nat) :
    (modifyAt f l j).getD i default
      = if i = j ∧ j < l.length then f (l.getD i default) else l.getD i default := by
  induction l generalizing i j with
  | nil => simp [modifyAt]
  | cons x xs ih =>
      cases j with
      | zero =>
          cases i with
          | zero => simp [modifyAt]
          | succ i' => simp [modifyAt]
      | succ j' =>
          cases i with
          | zero => simp [modifyAt]
          | succ i' =>
              simp only [modifyAt, List.getD_cons_succ, List.length_cons]
              rw [ih]
              by_cases h : i' = j' ∧ j' < xs.length
              · rw [if_pos h, if_pos (by omega : i' + 1 = j' + 1 ∧ j' + 1 < xs.length + 1)]
              · rw [if_neg h, if_neg
                  (by omega : ¬(i' + 1 = j' + 1 ∧ j' + 1 < xs.length + 1))]

theorem length_setNeedTop (mats : List ASEMaterial) (j : Nat) :
    (setNeedTop mats j).length = mats.length :=
  length_modifyAt _ _ _

theorem length_setNeedSub (mats : List ASEMaterial) (j q : Nat) :
    (setNeedSub mats j q).length = mats.length :=
  length_modifyAt _ _ _

theorem subCount_setNeedTop (mats : List ASEMaterial) (j i : Nat) :
    subCount (setNeedTop mats j) i = subCount mats i := by
  unfold subCount setNeedTop
  rw [getD_modifyAt]
  split <;> rfl

theorem subCount_setNeedSub (mats : List ASEMaterial) (j q i : Nat) :
    subCount (setNeedSub mats j q) i = subCount mats i := by
  unfold subCount setNeedSub
  rw [getD_modifyAt]
  split
  · simp [length_modifyAt]
  · rfl

theorem needTop_setNeedTop (mats : List ASEMaterial) (j i : Nat) :
    needTop (setNeedTop mats j) i = true
      ↔ ((i = j ∧ j < mats.length) ∨ needTop mats i = true) := by
  unfold needTop setNeedTop
  rw [getD_modifyAt]
  by_cases h : i = j ∧ j < mats.length
  · simp [h, setNeedBase]
  · simp [h]

theorem needSub_setNeedTop (mats : List ASEMaterial) (j i p : Nat) :
    needSub (setNeedTop mats j) i p = needSub mats i p := by
  unfold needSub setNeedTop
  rw [getD_modifyAt]
  split <;> rfl

theorem needTop_setNeedSub (mats : List ASEMaterial) (j q i : Nat) :
    needTop (setNeedSub mats j q) i = needTop mats i := by
  unfold needTop setNeedSub
  rw [getD_modifyAt]
  split <;> rfl

theorem needSub_setNeedSub (mats : List ASEMaterial) (j q i p : Nat) :
    needSub (setNeedSub mats j q) i p = true ↔
      ((i = j ∧ j < mats.length ∧ p = q ∧ q < subCount mats j) ∨ needSub mats i p = true) := by
  unfold needSub setNeedSub subCount
  rw [getD_modifyAt]
  by_cases h : i = j ∧ j < mats.length
  · obtain ⟨rfl, hj⟩ := h
    have hcond : i = i ∧ i < mats.length := ⟨rfl, hj⟩
    rw [if_pos hcond, getD_modifyAt]
    by_cases h2 : p = q ∧ q < (mats.getD i default).avSubMaterials.length
    · obtain ⟨rfl, hq⟩ := h2
      have hcond2 : p = p ∧ p < (mats.getD i default).avSubMaterials.length := ⟨rfl, hq⟩
      rw [if_pos hcond2]
      have hgetEq : mats.getD i default = mats[i] := List.getD_eq_getElem mats default hj
      simp only [setNeedBase]
      constructor
      · intro _
        exact Or.inl ⟨trivial, hj, trivial, hq⟩
      · intro _
        trivial
    · rw [if_neg h2]
      constructor
      · intro hold
        exact Or.inr hold
      · rintro (⟨-, -, hpq, hqlt⟩ | hold)
        · exact absurd ⟨hpq, hqlt⟩ h2
        · exact hold
  · rw [if_neg h]
    constructor
    · intro hold; exact Or.inr hold
    · rintro (⟨hij, hjlt, -, -⟩ | hold)
      · exact absurd ⟨hij, hjlt⟩ h
      · exact hold

theorem fold_setNeedSub_spec (iMat : Nat) (skip : Nat → Bool) :
    ∀ (ps : List Nat) (mats : List ASEMaterial),
      ((ps.foldl (fun acc p => if skip p then acc else setNeedSub acc iMat p) mats).length
          = mats.length) ∧
      (∀ i, subCount (ps.foldl (fun acc p => if skip p then acc else setNeedSub acc iMat p) mats) i
          = subCount mats i) ∧
      (∀ i, needTop (ps.foldl (fun acc p => if skip p then acc else setNeedSub acc iMat p) mats) i
          = needTop mats i) ∧
      (∀ i p, needSub (ps.foldl (fun acc p => if skip p then acc else setNeedSub acc iMat p) mats) i p
            = true
        ↔ ((i = iMat ∧ iMat < mats.length ∧ p ∈ ps ∧ skip p = false ∧ p < subCount mats iMat)
            ∨ needSub mats i p = true)) := by
  intro ps
  induction ps with
  | nil =>
      intro mats
      refine ⟨rfl, fun i => rfl, fun i => rfl, fun i p => ?_⟩
      simp
  | cons a t ih =>
      intro mats
      by_cases hca : skip a = true
      · have hstep : (a :: t).foldl (fun acc p => if skip p then acc else setNeedSub acc iMat p) mats
            = t.foldl (fun acc p => if skip p then acc else setNeedSub acc iMat p) mats := by
          simp [List.foldl_cons, hca]
        obtain ⟨ihl, ihc, iht, ihn⟩ := ih mats
        rw [hstep]
        refine ⟨ihl, ihc, iht, ?_⟩
        intro i p
        rw [ihn i p]
        constructor
        · rintro (⟨hi, hlt, hpt, hcp, hps⟩ | hold)
          · exact Or.inl ⟨hi, hlt, List.mem_cons_of_mem a hpt, hcp, hps⟩
          · exact Or.inr hold
        · rintro (⟨hi, hlt, hpmem, hcp, hps⟩ | hold)
          · rcases List.mem_cons.1 hpmem with rfl | hpt
            · rw [hca] at hcp; cases hcp
            · exact Or.inl ⟨hi, hlt, hpt, hcp, hps⟩
          · exact Or.inr hold
      · have hca' : skip a = false := by
          cases h : skip a
          · rfl
          · exact absurd h hca
        have hstep : (a :: t).foldl (fun acc p => if skip p then acc else setNeedSub acc iMat p) mats
            = t.foldl (fun acc p => if skip p then acc else setNeedSub acc iMat p)
                (setNeedSub mats iMat a) := by
          simp [List.foldl_cons, hca']
        obtain ⟨ihl, ihc, iht, ihn⟩ := ih (setNeedSub mats iMat a)
        rw [hstep]
        refine ⟨by rw [ihl, length_setNeedSub], ?_, ?_, ?_⟩
        · intro i; rw [ihc, subCount_setNeedSub]
        · intro i; rw [iht, needTop_setNeedSub]
        · intro i p
          rw [ihn i p, length_setNeedSub, subCount_setNeedSub]
          constructor
          · rintro (⟨hi, hlt, hpt, hcp, hps⟩ | hold)
            · exact Or.inl ⟨hi, hlt, List.mem_cons_of_mem a hpt, hcp, hps⟩
            · rcases (needSub_setNeedSub mats iMat a i p).1 hold with ⟨hi, hlt, hpa, halt⟩ | hold'
              · refine Or.inl ⟨hi, hlt, ?_, ?_, ?_⟩
                · rw [hpa]; exact List.mem_cons_self a t
                · rw [hpa]; exact hca'
                · rw [hpa]; exact halt
              · exact Or.inr hold'
          · rintro (⟨hi, hlt, hpmem, hcp, hps⟩ | hold)
            · rcases List.mem_cons.1 hpmem with rfl | hpt
              · exact Or.inr ((needSub_setNeedSub mats iMat p i p).2
                  (Or.inl ⟨hi, hlt, rfl, hps⟩))
              · exact Or.inl ⟨hi, hlt, hpt, hcp, hps⟩
            · exact Or.inr ((needSub_setNeedSub mats iMat a i p).2 (Or.inr hold))

theorem clampIndex_lt (mats : List ASEMaterial) (i : Nat) (hmats : mats ≠ []) :
    clampIndex mats i < mats.length := by
  have : 0 < mats.length := List.length_pos.2 hmats
  unfold clampIndex
  split <;> omega

theorem outMeshRef_directOutMesh (mesh : ASEMesh) (iMat : Nat) :
    outMeshRef (directOutMesh mesh iMat) = some (iMat, none) := by
  rw [outMeshRef, directOutMesh]
  cases hc : (mesh.mFaces.isEmpty || mesh.mPositions.isEmpty) <;>
    simp only [if_pos, if_neg, Bool.false_eq_true, if_false, if_true] <;> rfl

theorem outMeshRef_splitOutMesh (mesh : ASEMesh) (iMat nSub p : Nat)
    (hp : p ≠ DEFAULT_MATINDEX) :
    outMeshRef (splitOutMesh mesh iMat nSub p) = some (iMat, some p) := by
  rw [outMeshRef, splitOutMesh]
  simp [hp]

/-- The need-marking effect of one `ConvertMeshes` call: material shape
(list length, submaterial counts) is preserved, and a material or
submaterial is needed afterwards iff it was needed before or one of the
emitted output meshes references it. -/
theorem convertMeshes_need_spec (mats : List ASEMaterial) (mesh : ASEMesh)
    (hmats : mats ≠ [])
    (hbound : subCount mats (clampIndex mats mesh.iMaterialIndex) ≤ DEFAULT_MATINDEX) :
    ((convertMeshes mats mesh).1.length = mats.length) ∧
    (∀ i, subCount (convertMeshes mats mesh).1 i = subCount mats i) ∧
    (∀ i, needTop (convertMeshes mats mesh).1 i = true ↔
       (needTop mats i = true ∨
        ∃ om ∈ (convertMeshes mats mesh).2, outMeshRef om = some (i, none))) ∧
    (∀ i p, needSub (convertMeshes mats mesh).1 i p = true ↔
       (needSub mats i p = true ∨
        ∃ om ∈ (convertMeshes mats mesh).2, outMeshRef om = some (i, some p))) := by
  have hiMat : clampIndex mats mesh.iMaterialIndex < mats.length :=
    clampIndex_lt mats mesh.iMaterialIndex hmats
  by_cases hsub : ((mats.getD (clampIndex mats mesh.iMaterialIndex) default).avSubMaterials).isEmpty = true
  · have hconv : convertMeshes mats mesh
        = (setNeedTop mats (clampIndex mats mesh.iMaterialIndex),
           [directOutMesh mesh (clampIndex mats mesh.iMaterialIndex)]) := by
      unfold convertMeshes
      rw [if_pos hsub]
    rw [hconv]
    refine ⟨length_setNeedTop _ _, fun i => subCount_setNeedTop _ _ _, ?_, ?_⟩
    · intro i
      rw [needTop_setNeedTop]
      constructor
      · rintro (⟨rfl, hlt⟩ | hold)
        · exact Or.inr ⟨directOutMesh mesh (clampIndex mats mesh.iMaterialIndex), by simp,
            outMeshRef_directOutMesh mesh _⟩
        · exact Or.inl hold
      · rintro (hold | ⟨om, hommem, href⟩)
        · exact Or.inr hold
        · have hom : om = directOutMesh mesh (clampIndex mats mesh.iMaterialIndex) := by
            simpa using hommem
          rw [hom, outMeshRef_directOutMesh] at href
          have h1 : clampIndex mats mesh.iMaterialIndex = i := by
            injection href with h1
            exact congrArg Prod.fst h1
          exact Or.inl ⟨h1.symm, h1 ▸ hiMat⟩
    · intro i p
      rw [needSub_setNeedTop]
      constructor
      · intro hold; exact Or.inl hold
      · rintro (hold | ⟨om, hommem, href⟩)
        · exact hold
        · have hom : om = directOutMesh mesh (clampIndex mats mesh.iMaterialIndex) := by
            simpa using hommem
          rw [hom, outMeshRef_directOutMesh] at href
          have h2 : (none : Option Nat) = some p := by
            injection href with h1
            exact congrArg Prod.snd h1
          exact absurd h2 (by simp)
  · have hconv : convertMeshes mats mesh
        = ((List.range (subCount mats (clampIndex mats mesh.iMaterialIndex))).foldl
             (fun acc p =>
               if (subBucket mesh.mFaces
                     (subCount mats (clampIndex mats mesh.iMaterialIndex)) p).isEmpty then acc
               else setNeedSub acc (clampIndex mats mesh.iMaterialIndex) p) mats,
           (List.range (subCount mats (clampIndex mats mesh.iMaterialIndex))).filterMap
             (fun p =>
               if (subBucket mesh.mFaces
                     (subCount mats (clampIndex mats mesh.iMaterialIndex)) p).isEmpty then none
               else some (splitOutMesh mesh (clampIndex mats mesh.iMaterialIndex)
                 (subCount mats (clampIndex mats mesh.iMaterialIndex)) p))) := by
      unfold convertMeshes
      rw [if_neg hsub]
      rfl
    rw [hconv]
    obtain ⟨hl, hc, ht, hn⟩ := fold_setNeedSub_spec (clampIndex mats mesh.iMaterialIndex)
      (fun p => (subBucket mesh.mFaces
        (subCount mats (clampIndex mats mesh.iMaterialIndex)) p).isEmpty)
      (List.range (subCount mats (clampIndex mats mesh.iMaterialIndex))) mats
    refine ⟨hl, hc, ?_, ?_⟩
    · intro i
      rw [ht]
      constructor
      · intro hold; exact Or.inl hold
      · rintro (hold | ⟨om, hommem, href⟩)
        · exact hold
        · obtain ⟨p, hpmem, hpeq⟩ := List.mem_filterMap.1 hommem
          by_cases hbe : (subBucket mesh.mFaces
              (subCount mats (clampIndex mats mesh.iMaterialIndex)) p).isEmpty = true
          · rw [if_pos hbe] at hpeq; cases hpeq
          · rw [if_neg hbe] at hpeq
            injection hpeq with hpeq
            have hpD : p ≠ DEFAULT_MATINDEX := by
              have hplt := List.mem_range.1 hpmem
              omega
            rw [← hpeq, outMeshRef_splitOutMesh _ _ _ _ hpD] at href
            have h2 : (some p : Option Nat) = none := by
              injection href with h1
              exact congrArg Prod.snd h1
            cases h2
    · intro i p
      rw [hn i p]
      constructor
      · rintro (⟨hi, hlt, hpmem, hskipf, hps⟩ | hold)
        · refine Or.inr ⟨splitOutMesh mesh (clampIndex mats mesh.iMaterialIndex)
            (subCount mats (clampIndex mats mesh.iMaterialIndex)) p, ?_, ?_⟩
          · apply List.mem_filterMap.2
            exact ⟨p, hpmem, by rw [if_neg (by simp [hskipf])]⟩
          · have hpD : p ≠ DEFAULT_MATINDEX := by
              have hplt := List.mem_range.1 hpmem
              omega
            rw [outMeshRef_splitOutMesh _ _ _ _ hpD, hi]
        · exact Or.inl hold
      · rintro (hold | ⟨om, hommem, href⟩)
        · exact Or.inr hold
        · obtain ⟨p', hpmem, hpeq⟩ := List.mem_filterMap.1 hommem
          by_cases hbe : (subBucket mesh.mFaces
              (subCount mats (clampIndex mats mesh.iMaterialIndex)) p').isEmpty = true
          · rw [if_pos hbe] at hpeq; cases hpeq
          · rw [if_neg hbe] at hpeq
            injection hpeq with hpeq
            have hpD : p' ≠ DEFAULT_MATINDEX := by
              have hplt := List.mem_range.1 hpmem
              omega
            rw [← hpeq, outMeshRef_splitOutMesh _ _ _ _ hpD] at href
            injection href with h1
            have hfst : clampIndex mats mesh.iMaterialIndex = i := congrArg Prod.fst h1
            have hsnd : (some p' : Option Nat) = some p := congrArg Prod.snd h1
            injection hsnd with hsnd
            subst hsnd
            refine Or.inl ⟨hfst.symm, hfst ▸ hiMat, hpmem, ?_, List.mem_range.1 hpmem⟩
            simp only [Bool.not_eq_true] at hbe
            exact hbe

/-- The per-mesh loop of `InternReadFile`: skip marked meshes, corner-expand
(`BuildUniqueRepresentation`), and convert (`ConvertMeshes`), threading the
material list through.  `TransformVertices` (a transform transpose) and
`GenerateNormals` touch only transform/normal values, never face counts,
material indices or need flags, and are elided here. -/
def processMeshes : List ASEMaterial → List ASEMesh → List ASEMaterial × List OutMesh
  | mats, [] => (mats, [])
  | mats, mesh :: rest =>
    if mesh.bSkip then processMeshes mats rest
    else
      let r1 := convertMeshes mats (buildUniqueRepresentation mesh)
      let r2 := processMeshes r1.1 rest
      (r2.1, r1.2 ++ r2.2)

theorem processMeshes_spec :
    ∀ (meshes : List ASEMesh) (mats : List ASEMaterial),
      mats ≠ [] → (∀ i, subCount mats i ≤ DEFAULT_MATINDEX) →
      ((processMeshes mats meshes).1.length = mats.length) ∧
      (∀ i, subCount (processMeshes mats meshes).1 i = subCount mats i) ∧
      (∀ i, needTop (processMeshes mats meshes).1 i = true ↔
        (needTop mats i = true ∨
         ∃ om ∈ (processMeshes mats meshes).2, outMeshRef om = some (i, none))) ∧
      (∀ i p, needSub (processMeshes mats meshes).1 i p = true ↔
        (needSub mats i p = true ∨
         ∃ om ∈ (processMeshes mats meshes).2, outMeshRef om = some (i, some p))) := by
  intro meshes
  induction meshes with
  | nil =>
      intro mats hmats hbound
      refine ⟨rfl, fun i => rfl, fun i => ?_, fun i p => ?_⟩ <;> simp [processMeshes]
  | cons mesh rest ih =>
      intro mats hmats hbound
      by_cases hskip : mesh.bSkip = true
      · have hstep : processMeshes mats (mesh :: rest) = processMeshes mats rest := by
          simp [processMeshes, hskip]
        rw [hstep]
        exact ih mats hmats hbound
      · have hstep1 : (processMeshes mats (mesh :: rest)).1
            = (processMeshes (convertMeshes mats (buildUniqueRepresentation mesh)).1 rest).1 := by
          simp [processMeshes, hskip]
        have hstep2 : (processMeshes mats (mesh :: rest)).2
            = (convertMeshes mats (buildUniqueRepresentation mesh)).2
                ++ (processMeshes (convertMeshes mats (buildUniqueRepresentation mesh)).1 rest).2 := by
          simp [processMeshes, hskip]
        obtain ⟨sl, sc, st, sn⟩ :=
          convertMeshes_need_spec mats (buildUniqueRepresentation mesh) hmats (hbound _)
        have hmats1 : (convertMeshes mats (buildUniqueRepresentation mesh)).1 ≠ [] := by
          intro hnil
          rw [hnil] at sl
          exact hmats (List.length_eq_zero.1 sl.symm)
        have hbound1 : ∀ i,
            subCount (convertMeshes mats (buildUniqueRepresentation mesh)).1 i
              ≤ DEFAULT_MATINDEX := fun i => by rw [sc i]; exact hbound i
        obtain ⟨il, ic, it, inn⟩ := ih _ hmats1 hbound1
        refine ⟨by rw [hstep1, il, sl], fun i => by rw [hstep1, ic i, sc i], ?_, ?_⟩
        · intro i
          rw [hstep1, hstep2, it i, st i, or_assoc]
          constructor
          · rintro (h | ⟨om, hm, hr⟩ | ⟨om, hm, hr⟩)
            · exact Or.inl h
            · exact Or.inr ⟨om, List.mem_append.2 (Or.inl hm), hr⟩
            · exact Or.inr ⟨om, List.mem_append.2 (Or.inr hm), hr⟩
          · rintro (h | ⟨om, hm, hr⟩)
            · exact Or.inl h
            · rcases List.mem_append.1 hm with hm' | hm'
              · exact Or.inr (Or.inl ⟨om, hm', hr⟩)
              · exact Or.inr (Or.inr ⟨om, hm', hr⟩)
        · intro i p
          rw [hstep1, hstep2, inn i p, sn i p, or_assoc]
          constructor
          · rintro (h | ⟨om, hm, hr⟩ | ⟨om, hm, hr⟩)
            · exact Or.inl h
            · exact Or.inr ⟨om, List.mem_append.2 (Or.inl hm), hr⟩
            · exact Or.inr ⟨om, List.mem_append.2 (Or.inr hm), hr⟩
          · rintro (h | ⟨om, hm, hr⟩)
            · exact Or.inl h
            · rcases List.mem_append.1 hm with hm' | hm'
              · exact Or.inr (Or.inl ⟨om, hm', hr⟩)
              · exact Or.inr (Or.inr ⟨om, hm', hr⟩)

theorem generateDefaultMaterial_fst (mats : List ASEMaterial) (meshes : List ASEMesh) :
    (generateDefaultMaterial mats meshes).1 = mats ++ [defaultMaterialEntry] ∨
    ((generateDefaultMaterial mats meshes).1 = mats ∧ mats ≠ []) := by
  unfold generateDefaultMaterial
  by_cases h : ((meshes.any fun m => !m.bSkip && m.iMaterialIndex == DEFAULT_MATINDEX)
      || mats.isEmpty) = true
  · rw [if_pos h]
    exact Or.inl rfl
  · rw [if_neg h]
    refine Or.inr ⟨rfl, ?_⟩
    intro hnil
    subst hnil
    simp at h

theorem needTop_append_entry (mats : List ASEMaterial) (i : Nat) :
    needTop (mats ++ [defaultMaterialEntry]) i = needTop mats i := by
  unfold needTop
  by_cases h : i < mats.length
  · rw [List.getD_append _ _ _ _ h]
  · by_cases h1 : i = mats.length
    · subst h1
      rw [List.getD_append_right _ _ _ _ (le_refl _)]
      simp only [Nat.sub_self]
      rw [List.getD_eq_default _ _ (by omega : mats.length ≤ mats.length)]
      rfl
    · rw [List.getD_eq_default _ _ (by simp; omega), List.getD_eq_default _ _ (by omega)]

theorem avSub_append_entry (mats : List ASEMaterial) (i : Nat) :
    ((mats ++ [defaultMaterialEntry]).getD i default).avSubMaterials
      = (mats.getD i default).avSubMaterials := by
  by_cases h : i < mats.length
  · rw [List.getD_append _ _ _ _ h]
  · by_cases h1 : i = mats.length
    · subst h1
      rw [List.getD_append_right _ _ _ _ (le_refl _)]
      simp only [Nat.sub_self]
      rw [List.getD_eq_default _ _ (by omega : mats.length ≤ mats.length)]
      rfl
    · rw [List.getD_eq_default _ _ (by simp; omega), List.getD_eq_default _ _ (by omega)]

theorem needSub_append_entry (mats : List ASEMaterial) (i p : Nat) :
    needSub (mats ++ [defaultMaterialEntry]) i p = needSub mats i p := by
  unfold needSub
  rw [avSub_append_entry]

theorem subCount_append_entry (mats : List ASEMaterial) (i : Nat) :
    subCount (mats ++ [defaultMaterialEntry]) i = subCount mats i := by
  unfold subCount
  rw [avSub_append_entry]

/-- Keys of the submaterial slots `BuildMaterialIndices` creates for one
material's submaterial loop, starting at submaterial index `p0`. -/
def subSlotKeys (i : Nat) : Nat → List MatBase → List (Nat × Option Nat)
  | _, [] => []
  | p, sm :: rest =>
      (if sm.bNeed then [(i, some p)] else []) ++ subSlotKeys i (p + 1) rest

/-- Keys of the output material slots, in the order `BuildMaterialIndices`
enumerates them: for each top-level material (from index `i0`), a slot for
the material itself when needed, then one per needed submaterial. -/
def slotKeysAux : Nat → List ASEMaterial → List (Nat × Option Nat)
  | _, [] => []
  | i, m :: rest =>
      ((if m.base.bNeed then [(i, none)] else []) ++ subSlotKeys i 0 m.avSubMaterials)
        ++ slotKeysAux (i + 1) rest

/-- The identities of the materials receiving a slot in the final output
material table, in table order: `(i, none)` is top-level material `i`,
`(i, some p)` its `p`-th submaterial. -/
def slotKeys (mats : List ASEMaterial) : List (Nat × Option Nat) := slotKeysAux 0 mats

theorem mem_subSlotKeys (i : Nat) (subs : List MatBase) :
    ∀ (p0 i' : Nat) (k : Option Nat),
      ((i', k) ∈ subSlotKeys i p0 subs
        ↔ ∃ q, q < subs.length ∧ i' = i ∧ k = some (p0 + q)
            ∧ (subs.getD q default).bNeed = true) := by
  induction subs with
  | nil => intro p0 i' k; simp [subSlotKeys]
  | cons s rest ih =>
      intro p0 i' k
      have hshape : subSlotKeys i p0 (s :: rest)
          = (if s.bNeed then [(i, some p0)] else []) ++ subSlotKeys i (p0 + 1) rest := rfl
      rw [hshape]
      constructor
      · intro hmem
        rcases List.mem_append.1 hmem with h1 | h2
        · by_cases hb : s.bNeed = true
          · rw [if_pos hb] at h1
            simp only [List.mem_singleton, Prod.mk.injEq] at h1
            exact ⟨0, by simp, h1.1, by rw [h1.2, Nat.add_zero], by simpa using hb⟩
          · rw [if_neg hb] at h1
            simp at h1
        · obtain ⟨q, hq, hi, hk, hneed⟩ := (ih (p0 + 1) i' k).1 h2
          refine ⟨q + 1, by simp only [List.length_cons]; omega, hi, ?_, by simpa using hneed⟩
          rw [hk]
          exact congrArg some (by omega)
      · rintro ⟨q, hq, rfl, rfl, hneed⟩
        cases q with
        | zero =>
            have hb : s.bNeed = true := by simpa using hneed
            apply List.mem_append.2
            left
            rw [if_pos hb]
            simp
        | succ q' =>
            apply List.mem_append.2
            right
            apply (ih (p0 + 1) i' (some (p0 + (q' + 1)))).2
            simp only [List.length_cons] at hq
            refine ⟨q', by omega, rfl, congrArg some (by omega), by simpa using hneed⟩

theorem subSlotKeys_fst (i : Nat) (subs : List MatBase) :
    ∀ (p0 : Nat) (key : Nat × Option Nat), key ∈ subSlotKeys i p0 subs →
      key.1 = i ∧ ∃ p, p0 ≤ p ∧ key.2 = some p := by
  intro p0 key hmem
  obtain ⟨i', k⟩ := key
  obtain ⟨q, hq, hi, hk, -⟩ := (mem_subSlotKeys i subs p0 i' k).1 hmem
  exact ⟨hi, p0 + q, by omega, hk⟩

theorem subSlotKeys_nodup (i : Nat) (subs : List MatBase) :
    ∀ p0, (subSlotKeys i p0 subs).Nodup := by
  induction subs with
  | nil => intro p0; simp [subSlotKeys]
  | cons s rest ih =>
      intro p0
      show ((if s.bNeed then [(i, some p0)] else []) ++ subSlotKeys i (p0 + 1) rest).Nodup
      refine List.Nodup.append ?_ (ih (p0 + 1)) ?_
      · by_cases hb : s.bNeed = true <;> simp [hb]
      · intro key hk1 hk2
        obtain ⟨-, p, hp, hkp⟩ := subSlotKeys_fst i rest (p0 + 1) key hk2
        by_cases hb : s.bNeed = true
        · rw [if_pos hb] at hk1
          simp only [List.mem_singleton] at hk1
          rw [hk1] at hkp
          simp only at hkp
          injection hkp with hkp
          omega
        · rw [if_neg hb] at hk1
          simp at hk1

theorem mem_slotKeysAux (mats : List ASEMaterial) :
    ∀ (i0 i' : Nat) (k : Option Nat),
      ((i', k) ∈ slotKeysAux i0 mats ↔
        ∃ j, j < mats.length ∧ i' = i0 + j ∧
          ((k = none ∧ (mats.getD j default).base.bNeed = true) ∨
           (∃ p, k = some p ∧ p < (mats.getD j default).avSubMaterials.length ∧
              ((mats.getD j default).avSubMaterials.getD p default).bNeed = true))) := by
  induction mats with
  | nil => intro i0 i' k; simp [slotKeysAux]
  | cons m rest ih =>
      intro i0 i' k
      have hshape : slotKeysAux i0 (m :: rest)
          = ((if m.base.bNeed then [(i0, none)] else []) ++ subSlotKeys i0 0 m.avSubMaterials)
              ++ slotKeysAux (i0 + 1) rest := rfl
      rw [hshape]
      constructor
      · intro hmem
        rcases List.mem_append.1 hmem with h1 | h2
        · rcases List.mem_append.1 h1 with ha | hb
          · by_cases hn : m.base.bNeed = true
            · rw [if_pos hn] at ha
              simp only [List.mem_singleton, Prod.mk.injEq] at ha
              exact ⟨0, by simp, by omega, Or.inl ⟨ha.2, by simpa using hn⟩⟩
            · rw [if_neg hn] at ha
              simp at ha
          · obtain ⟨q, hq, hi, hk, hneed⟩ := (mem_subSlotKeys i0 m.avSubMaterials 0 i' k).1 hb
            exact ⟨0, by simp, by omega,
              Or.inr ⟨q, by simpa using hk, by simpa using hq, by simpa using hneed⟩⟩
        · obtain ⟨j, hj, hi, hcase⟩ := (ih (i0 + 1) i' k).1 h2
          refine ⟨j + 1, by simp only [List.length_cons]; omega, by omega, ?_⟩
          simpa using hcase
      · rintro ⟨j, hj, rfl, hcase⟩
        cases j with
        | zero =>
            apply List.mem_append.2
            left
            apply List.mem_append.2
            rcases hcase with ⟨rfl, hneed⟩ | ⟨p, rfl, hp, hneed⟩
            · left
              rw [if_pos (by simpa using hneed)]
              simp
            · right
              apply (mem_subSlotKeys i0 m.avSubMaterials 0 (i0 + 0) (some p)).2
              exact ⟨p, by simpa using hp, by omega, by simp, by simpa using hneed⟩
        | succ j' =>
            apply List.mem_append.2
            right
            apply (ih (i0 + 1) (i0 + (j' + 1)) k).2
            simp only [List.length_cons] at hj
            refine ⟨j', by omega, by omega, by simpa using hcase⟩

theorem slotKeysAux_fst (mats : List ASEMaterial) :
    ∀ (i0 : Nat) (key : Nat × Option Nat), key ∈ slotKeysAux i0 mats → i0 ≤ key.1 := by
  intro i0 key hmem
  obtain ⟨i', k⟩ := key
  obtain ⟨j, -, hi, -⟩ := (mem_slotKeysAux mats i0 i' k).1 hmem
  simp only
  omega

theorem slotKeysAux_nodup (mats : List ASEMaterial) : ∀ i0, (slotKeysAux i0 mats).Nodup := by
  induction mats with
  | nil => intro i0; simp [slotKeysAux]
  | cons m rest ih =>
      intro i0
      show (((if m.base.bNeed then [(i0, none)] else []) ++ subSlotKeys i0 0 m.avSubMaterials)
        ++ slotKeysAux (i0 + 1) rest).Nodup
      refine List.Nodup.append ?_ (ih (i0 + 1)) ?_
      · refine List.Nodup.append ?_ (subSlotKeys_nodup i0 m.avSubMaterials 0) ?_
        · by_cases hn : m.base.bNeed = true <;> simp [hn]
        · intro key hk1 hk2
          obtain ⟨-, p, -, hkp⟩ := subSlotKeys_fst i0 m.avSubMaterials 0 key hk2
          by_cases hn : m.base.bNeed = true
          · rw [if_pos hn] at hk1
            simp only [List.mem_singleton] at hk1
            rw [hk1] at hkp
            simp at hkp
          · rw [if_neg hn] at hk1
            simp at hk1
      · intro key hk1 hk2
        have hge := slotKeysAux_fst rest (i0 + 1) key hk2
        rcases List.mem_append.1 hk1 with ha | hb
        · by_cases hn : m.base.bNeed = true
          · rw [if_pos hn] at ha
            simp only [List.mem_singleton] at ha
            rw [ha] at hge
            simp only at hge
            omega
          · rw [if_neg hn] at ha
            simp at ha
        · obtain ⟨hfst, -⟩ := subSlotKeys_fst i0 m.avSubMaterials 0 key hb
          omega

theorem mem_slotKeys_top (mats : List ASEMaterial) (i : Nat) :
    (i, none) ∈ slotKeys mats ↔ needTop mats i = true := by
  unfold slotKeys needTop
  rw [mem_slotKeysAux]
  constructor
  · rintro ⟨j, hj, hij, hcase⟩
    have : j = i := by omega
    subst this
    rcases hcase with ⟨-, hneed⟩ | ⟨p, hp, -, -⟩
    · exact hneed
    · cases hp
  · intro hneed
    have hi : i < mats.length := by
      by_contra hge
      rw [List.getD_eq_default _ _ (by omega)] at hneed
      cases hneed
    exact ⟨i, hi, by omega, Or.inl ⟨rfl, hneed⟩⟩

theorem mem_slotKeys_sub (mats : List ASEMaterial) (i p : Nat) :
    (i, some p) ∈ slotKeys mats ↔ needSub mats i p = true := by
  unfold slotKeys needSub
  rw [mem_slotKeysAux]
  constructor
  · rintro ⟨j, hj, hij, hcase⟩
    have : j = i := by omega
    subst this
    rcases hcase with ⟨hp, -⟩ | ⟨p', hp', hplt, hneed⟩
    · cases hp
    · injection hp' with hp'
      subst hp'
      exact hneed
  · intro hneed
    have hp : p < (mats.getD i default).avSubMaterials.length := by
      by_contra hge
      rw [List.getD_eq_default (mats.getD i default).avSubMaterials default
        (by omega : (mats.getD i default).avSubMaterials.length ≤ p)] at hneed
      cases hneed
    have hi : i < mats.length := by
      by_contra hge
      rw [List.getD_eq_default mats default (by omega : mats.length ≤ i)] at hneed hp
      cases hneed
    exact ⟨i, hi, by omega, Or.inr ⟨p, rfl, hp, hneed⟩⟩

theorem slotKeys_nodup (mats : List ASEMaterial) : (slotKeys mats).Nodup :=
  slotKeysAux_nodup mats 0

/-- Final material list of the modelled pipeline: default-material
injection, then the per-mesh convert loop. -/
def pipelineMats (mats0 : List ASEMaterial) (meshes0 : List ASEMesh) : List ASEMaterial :=
  (processMeshes (generateDefaultMaterial mats0 meshes0).1
    (generateDefaultMaterial mats0 meshes0).2).1

/-- All generated output meshes of the modelled pipeline, dummies
included. -/
def pipelineOuts (mats0 : List ASEMaterial) (meshes0 : List ASEMesh) : List OutMesh :=
  (processMeshes (generateDefaultMaterial mats0 meshes0).1
    (generateDefaultMaterial mats0 meshes0).2).2

/-- The meshes of the returned scene: generated output meshes minus the
zero-face dummies `InternReadFile` removes. -/
def sceneMeshes (mats0 : List ASEMaterial) (meshes0 : List ASEMesh) : List OutMesh :=
  (pipelineOuts mats0 meshes0).filter (fun om => om.mNumFaces != 0)

/-- C3 (amended): starting from a parser result whose need flags are all
clear, a material or submaterial receives a slot in the output material
table iff some *generated* output mesh references it (zero-face dummy
meshes, discarded from the returned scene, count), and the slot keys are
distinct, so each needed material receives exactly one slot. -/
theorem material_reachability_amended (mats0 : List ASEMaterial) (meshes0 : List ASEMesh)
    (hcleanTop : ∀ i, needTop mats0 i = false)
    (hcleanSub : ∀ i p, needSub mats0 i p = false)
    (hbound : ∀ i, subCount mats0 i ≤ DEFAULT_MATINDEX) :
    ((slotKeys (pipelineMats mats0 meshes0)).Nodup) ∧
    (∀ i, ((i, none) ∈ slotKeys (pipelineMats mats0 meshes0)
        ↔ ∃ om ∈ pipelineOuts mats0 meshes0, outMeshRef om = some (i, none))) ∧
    (∀ i p, ((i, some p) ∈ slotKeys (pipelineMats mats0 meshes0)
        ↔ ∃ om ∈ pipelineOuts mats0 meshes0, outMeshRef om = some (i, some p))) := by
  have htop1 : ∀ i, needTop (generateDefaultMaterial mats0 meshes0).1 i = false := by
    intro i
    rcases generateDefaultMaterial_fst mats0 meshes0 with h | ⟨h, -⟩ <;> rw [h]
    · rw [needTop_append_entry]; exact hcleanTop i
    · exact hcleanTop i
  have hsub1 : ∀ i p, needSub (generateDefaultMaterial mats0 meshes0).1 i p = false := by
    intro i p
    rcases generateDefaultMaterial_fst mats0 meshes0 with h | ⟨h, -⟩ <;> rw [h]
    · rw [needSub_append_entry]; exact hcleanSub i p
    · exact hcleanSub i p
  have hbound1 : ∀ i, subCount (generateDefaultMaterial mats0 meshes0).1 i ≤ DEFAULT_MATINDEX := by
    intro i
    rcases generateDefaultMaterial_fst mats0 meshes0 with h | ⟨h, -⟩ <;> rw [h]
    · rw [subCount_append_entry]; exact hbound i
    · exact hbound i
  have hne1 : (generateDefaultMaterial mats0 meshes0).1 ≠ [] := by
    rcases generateDefaultMaterial_fst mats0 meshes0 with h | ⟨h, hne⟩ <;> rw [h]
    · simp
    · exact hne
  obtain ⟨-, -, ht, hs⟩ := processMeshes_spec (generateDefaultMaterial mats0 meshes0).2
    (generateDefaultMaterial mats0 meshes0).1 hne1 hbound1
  refine ⟨slotKeys_nodup _, fun i => ?_, fun i p => ?_⟩
  · rw [mem_slotKeys_top]
    show needTop (pipelineMats mats0 meshes0) i = true ↔ _
    unfold pipelineMats
    rw [ht i, htop1 i]
    simp only [Bool.false_eq_true, false_or]
    rfl
  · rw [mem_slotKeys_sub]
    show needSub (pipelineMats mats0 meshes0) i p = true ↔ _
    unfold pipelineMats
    rw [hs i p, hsub1 i p]
    simp only [Bool.false_eq_true, false_or]
    rfl

/-- A mesh without faces: a dummy helper object. -/
def cexMesh : ASEMesh := { triMesh with mFaces := [], iMaterialIndex := 0 }

def cexMats : List ASEMaterial := [defaultConstructedMaterial]

/-- C3 counterexample: a zero-face dummy mesh marks its material needed and
is then discarded from the returned scene, so the output material table
holds a material that no output mesh of the returned scene references —
the claimed "iff" fails in the only-if direction. -/
theorem material_reachability_counterexample :
    slotKeys (pipelineMats cexMats [cexMesh]) = [(0, none)] ∧
    sceneMeshes cexMats [cexMesh] = [] :=
  ⟨rfl, rfl⟩

theorem material_reachability_witness :
    ((slotKeys (pipelineMats cexMats [cexMesh])).Nodup) ∧
    (∀ i, ((i, none) ∈ slotKeys (pipelineMats cexMats [cexMesh])
        ↔ ∃ om ∈ pipelineOuts cexMats [cexMesh], outMeshRef om = some (i, none))) ∧
    (∀ i p, ((i, some p) ∈ slotKeys (pipelineMats cexMats [cexMesh])
        ↔ ∃ om ∈ pipelineOuts cexMats [cexMesh], outMeshRef om = some (i, some p))) :=
  material_reachability_amended cexMats [cexMesh]
    (fun i => by cases i <;> rfl)
    (fun i p => by cases i <;> rfl)
    (fun i => by
      cases i with
      | zero => decide
      | succ n => exact Nat.zero_le _)

end ASE
